import Mathlib

/-!
Verification development for the Flow402 credit-metering gateway.

The repository's core is embedded shallowly:
* strings are modelled as `List Char` (`Str`), with JS/SQL string helpers
  (`trim`, `toLowerCase`, `split`, `Number.parseInt`) re-implemented
  executably;
* the Postgres tables `credits` and `tx_ledger` together with the
  `increment_balance` / `deduct_balance` stored procedures
  (migration `mvp-03-multi-tenant-credits.sql`) become pure functions on a
  `DB` value, with a raised exception modelled as `Except.error` (the
  surrounding transaction aborts, so the state is unchanged);
* the HTTP-layer idempotency store (`apps/web/src/lib/idempotency.ts`),
  the HMAC signature module (`apps/web/src/lib/hmac.ts`) and the route
  handlers under `apps/web/src/app/api` are translated function by function.
-/

namespace Flow402

/-- Characters of a string; the embedding works over `List Char`. -/
abbrev Str := List Char

/-- Whitespace recognised by JavaScript `String.prototype.trim`
(restricted to the ASCII whitespace actually occurring in headers). -/
def isWsChar (c : Char) : Bool :=
  c = ' ' || c = '\t' || c = '\n' || c = '\r'

/-- JS `s.trim()`: strip leading and trailing whitespace. -/
def trimChars (s : Str) : Str :=
  ((s.dropWhile isWsChar).reverse.dropWhile isWsChar).reverse

/-- SQL `trim(s)`: strips space characters from both ends. -/
def sqlTrim (s : Str) : Str :=
  ((s.dropWhile (· = ' ')).reverse.dropWhile (· = ' ')).reverse

/-- JS `s.toLowerCase()` (per character). -/
def toLowerStr (s : Str) : Str := s.map Char.toLower

/-- JS `s.split(sep)` for a one-character separator: always returns at
least one (possibly empty) field. -/
def splitOnChar (sep : Char) : Str → List Str
  | [] => [[]]
  | c :: rest =>
    match splitOnChar sep rest with
    | [] => [[]]
    | s :: ss => if c = sep then [] :: s :: ss else (c :: s) :: ss

/-- Decimal digit character for `n < 10` (clamped at `9` above). -/
def digitChar : Nat → Char
  | 0 => '0' | 1 => '1' | 2 => '2' | 3 => '3' | 4 => '4'
  | 5 => '5' | 6 => '6' | 7 => '7' | 8 => '8' | _ => '9'

/-- Fuelled decimal printing of a natural number (the fuel makes the
definition structurally recursive, so closed instances reduce). -/
def natToStrAux : Nat → Nat → Str
  | 0, _ => []
  | fuel + 1, n =>
    if n < 10 then [digitChar n] else natToStrAux fuel (n / 10) ++ [digitChar (n % 10)]

/-- Decimal rendering of a natural number, as in a JS template literal. -/
def natToStr (n : Nat) : Str := natToStrAux (n + 1) n

/-- Decimal rendering of an integer, as in a JS template literal. -/
def intToStr (i : Int) : Str :=
  if i < 0 then '-' :: natToStr i.natAbs else natToStr i.toNat

/-- Value of a decimal digit character, `none` for non-digits. -/
def digitVal? (c : Char) : Option Nat :=
  if '0' ≤ c ∧ c ≤ '9' then some (c.toNat - 48) else none

/-- Consume a prefix of decimal digits, folding them onto `acc`
(the tail after the first non-digit is ignored, as `parseInt` does). -/
def takeDigits : Str → Nat → Nat
  | [], acc => acc
  | c :: rest, acc =>
    match digitVal? c with
    | some d => takeDigits rest (acc * 10 + d)
    | none => acc

/-- Digit-prefix parse: `none` when the first character is not a digit
(`Number.parseInt` then yields `NaN`). -/
def parseDigitsOpt : Str → Option Nat
  | [] => none
  | c :: rest =>
    match digitVal? c with
    | some d => some (takeDigits rest d)
    | none => none

/-- JS `Number.parseInt(s, 10)` on an already-trimmed string: optional
sign, then a digit prefix; `none` models `NaN`. -/
def jsParseInt (s : Str) : Option Int :=
  match s with
  | [] => none
  | c :: rest =>
    if c = '-' then (parseDigitsOpt rest).map (fun n => -(n : Int))
    else if c = '+' then (parseDigitsOpt rest).map (fun n => (n : Int))
    else (parseDigitsOpt (c :: rest)).map (fun n => (n : Int))

/-- The ten decimal digit characters. -/
def decDigits : Str := "0123456789".data

/-- The sixteen lowercase hex digit characters. -/
def hexDigitsLower : Str := "0123456789abcdef".data

/-- Value of a hex digit character (either case), `none` otherwise;
mirrors the per-character decoding done by `Buffer.from(s, "hex")`. -/
def hexVal? (c : Char) : Option Nat :=
  if '0' ≤ c ∧ c ≤ '9' then some (c.toNat - 48)
  else if 'a' ≤ c ∧ c ≤ 'f' then some (c.toNat - 87)
  else if 'A' ≤ c ∧ c ≤ 'F' then some (c.toNat - 55)
  else none

/-- Node `Buffer.from(s, "hex")`: decode pairs of hex digits into bytes,
stopping at the first incomplete or invalid pair. -/
def decodeHex : Str → List Nat
  | c1 :: c2 :: rest =>
    match hexVal? c1, hexVal? c2 with
    | some h, some l => (16 * h + l) :: decodeHex rest
    | _, _ => []
  | _ => []

/-! ## Ledger data model

The `credits` table (primary key `(tenant_id, user_id)`) and the
append-only `tx_ledger` table (unique index on `(tenant_id, ref)`),
from the MVP-03 migration.  The `vendor_users` table is carried as a
plain list of `(vendor_id, user_id)` pairs for the route embeddings.
Row `metadata` is opaque and claim-irrelevant, so it is not carried. -/

structure CreditRow where
  tenant : Str
  user : Str
  balance : Int
deriving Repr, DecidableEq

structure LedgerRow where
  tenant : Str
  user : Str
  kind : Str
  amount : Int
  ref : Str
deriving Repr, DecidableEq

structure DB where
  credits : List CreditRow
  txLedger : List LedgerRow
  vendorUsers : List (Str × Str)
deriving Repr, DecidableEq

/-- Errors raised by the two stored procedures; raising aborts the
transaction, so the caller observes an unchanged database. -/
inductive RpcError where
  /-- errcode 22023, message `amount must be positive` -/
  | amountMustBePositive
  /-- errcode 22004, message `ref required` -/
  | refRequired
  /-- errcode P0002, message `ref already used for non-topup entry` -/
  | refUsedForNonTopup
  /-- errcode P0003, message `ref already used for non-deduct entry` -/
  | refUsedForNonDeduct
  /-- errcode P0001, message `insufficient_funds` -/
  | insufficientFunds
deriving Repr, DecidableEq

/-- Balance of the first `credits` row keyed `(t, u)`; the primary key
makes at most one row match. -/
def lookupCredit (db : DB) (t u : Str) : Option Int :=
  (db.credits.find? fun c => c.tenant == t && c.user == u).map (·.balance)

/-- Kind of the ledger row with the given `(tenant_id, ref)` —
`select kind from tx_ledger where tenant_id = … and ref = … limit 1`. -/
def findLedgerKind? (db : DB) (t ref : Str) : Option Str :=
  (db.txLedger.find? fun r => r.tenant == t && r.ref == ref).map (·.kind)

/-- Conditional update
`update credits set balance_cents = balance_cents - a
 where tenant_id = t and user_id = u and balance_cents >= a
 returning balance_cents`:
`none` models zero rows updated.  With the `(tenant_id, user_id)`
primary key at most one row can match, which the first-match rewrite
reflects. -/
def conditionalDeduct (t u : Str) (a : Int) :
    List CreditRow → Option (List CreditRow × Int)
  | [] => none
  | c :: rest =>
    if c.tenant == t && c.user == u && decide (a ≤ c.balance) then
      some ({ c with balance := c.balance - a } :: rest, c.balance - a)
    else
      (conditionalDeduct t u a rest).map fun p => (c :: p.1, p.2)

/-- Upsert
`insert into credits (tenant_id, user_id, balance_cents) values (t, u, a)
 on conflict (tenant_id, user_id) do update
 set balance_cents = credits.balance_cents + excluded.balance_cents
 returning balance_cents`. -/
def upsertCredit (t u : Str) (a : Int) : List CreditRow → List CreditRow × Int
  | [] => ([⟨t, u, a⟩], a)
  | c :: rest =>
    if c.tenant == t && c.user == u then
      ({ c with balance := c.balance + a } :: rest, c.balance + a)
    else
      let p := upsertCredit t u a rest
      (c :: p.1, p.2)

/-- Resolution of `v_ref := nullif(trim(coalesce(p_ref, '')), '')` with
the random replacement ref (`topup_<hex>`) supplied as `genRef`:
`none` and blank refs fall back to the generated one. -/
def incRef (pRef : Option Str) (genRef : Str) : Str :=
  if sqlTrim (pRef.getD []) = [] then genRef else sqlTrim (pRef.getD [])

/-- Journal kind `coalesce(nullif(p_kind, ''), 'topup')`. -/
def incKind (pKind : Str) : Str :=
  if pKind = [] then "topup".data else pKind

/-- Stored procedure `public.increment_balance(p_tenant, p_user, p_amount,
p_kind, p_ref, p_metadata)`.  `pRef = none` models SQL `null`; the SQL
null checks on `p_tenant` / `p_user` are vacuous here because Lean
values are never null. -/
def increment_balance (db : DB) (pTenant pUser : Str) (pAmount : Int)
    (pKind : Str) (pRef : Option Str) (genRef : Str) :
    Except RpcError (DB × Int) :=
  if pAmount ≤ 0 then .error .amountMustBePositive
  else
    match findLedgerKind? db pTenant (incRef pRef genRef) with
    | some k =>
      if k ≠ "topup".data then .error .refUsedForNonTopup
      else .ok (db, (lookupCredit db pTenant pUser).getD 0)
    | none =>
      .ok ({ db with
             credits := (upsertCredit pTenant pUser pAmount db.credits).1,
             txLedger := db.txLedger ++
               [⟨pTenant, pUser, incKind pKind, pAmount, incRef pRef genRef⟩] },
           (upsertCredit pTenant pUser pAmount db.credits).2)

/-- Stored procedure `public.deduct_balance(p_tenant, p_user, p_amount,
p_ref, p_metadata)`.  The ledger probe uses the untrimmed `p_ref`
(`where ref = p_ref`), while the emptiness guard trims. -/
def deduct_balance (db : DB) (pTenant pUser : Str) (pAmount : Int)
    (pRef : Str) : Except RpcError (DB × Int) :=
  if pAmount ≤ 0 then .error .amountMustBePositive
  else if sqlTrim pRef = [] then .error .refRequired
  else
    match findLedgerKind? db pTenant pRef with
    | some k =>
      if k ≠ "deduct".data then .error .refUsedForNonDeduct
      else .ok (db, (lookupCredit db pTenant pUser).getD 0)
    | none =>
      match conditionalDeduct pTenant pUser pAmount db.credits with
      | none => .error .insufficientFunds
      | some (credits', newBal) =>
        .ok ({ db with
               credits := credits',
               txLedger := db.txLedger ++ [⟨pTenant, pUser, "deduct".data, pAmount, pRef⟩] },
             newBal)

/-- Well-formedness of the `credits` table: the `(tenant_id, user_id)`
primary key admits no duplicate keys. -/
def creditsWF (rows : List CreditRow) : Prop :=
  rows.Pairwise fun a b => ¬(a.tenant = b.tenant ∧ a.user = b.user)

/-- All committed balances are non-negative. -/
def nonNegBalances (db : DB) : Prop := ∀ c ∈ db.credits, 0 ≤ c.balance

instance (rows : List CreditRow) : Decidable (creditsWF rows) :=
  inferInstanceAs
    (Decidable (rows.Pairwise fun a b : CreditRow =>
      ¬(a.tenant = b.tenant ∧ a.user = b.user)))

instance (db : DB) : Decidable (nonNegBalances db) :=
  inferInstanceAs (Decidable (∀ c ∈ db.credits, 0 ≤ c.balance))

/-! ## HTTP-layer idempotency store

Embedding of `IdempotencyStore` from `apps/web/src/lib/idempotency.ts`.
Rows of the `idempotency_keys` table keep `created_at` as a Unix
millisecond count (the TS code round-trips it through `Date.parse`,
always finite here).  A thrown `Flow402Error` is an `Except.error`
carrying the error `code` and HTTP `status`. -/

structure IdemRow where
  id : Str
  method : Str
  path : Str
  bodySha : Str
  responseStatus : Option Int
  responseBody : Option Str
  createdAt : Int
deriving Repr, DecidableEq

structure IdemStore where
  rows : List IdemRow
deriving Repr, DecidableEq

/-- A thrown `Flow402Error`, reduced to its `code` and HTTP `status`. -/
structure F402Err where
  code : Str
  status : Int
deriving Repr, DecidableEq

/-- Result type of `IdempotencyStore.claim`. -/
inductive ClaimOutcome where
  | claimed
  | locked
  | conflict (reason : Str)
  | replay (status : Int) (body : Str)
deriving Repr, DecidableEq

/-- Input record of `IdempotencyStore.claim` (`ttlMs` optional, the
store default applies when absent). -/
structure ClaimInput where
  id : Str
  method : Str
  path : Str
  bodySha : Str
  ttlMs : Option Int
deriving Repr, DecidableEq

/-- `DEFAULT_TTL_MS = 24 * 60 * 60 * 1000`. -/
def DEFAULT_TTL_MS : Int := 24 * 60 * 60 * 1000

/-- `IdempotencyStore.isExpired`: `Date.now() - createdAt > ttlMs`. -/
def rowExpired (row : IdemRow) (ttlMs now : Int) : Bool :=
  decide (now - row.createdAt > ttlMs)

/-- Fresh reserved row inserted by a successful claim (response fields
null, `created_at` defaulting to `now()`). -/
def freshIdemRow (key : Str) (input : ClaimInput) (now : Int) : IdemRow :=
  ⟨key, input.method, input.path, input.bodySha, none, none, now⟩

/-- `IdempotencyStore.claim`.  The TS method first tries the insert and
falls back to inspecting the existing row on a `23505` unique-key
violation; sequentially that is: insert when no row exists, otherwise
inspect.  The expired branch deletes the row and retries itself; after
the delete the retry's insert succeeds, which the delete-then-insert
below is the unfolding of.  (The "row disappeared after the unique
violation" retry is unreachable without interleaving.) -/
def IdemStore.claimFn (s : IdemStore) (input : ClaimInput) (now : Int) :
    Except F402Err (IdemStore × ClaimOutcome) :=
  if trimChars input.id = [] then
    .error ⟨"idempotency_conflict".data, 400⟩
  else
    match s.rows.find? (fun r => r.id == trimChars input.id) with
    | none =>
      .ok (⟨s.rows ++ [freshIdemRow (trimChars input.id) input now]⟩, .claimed)
    | some row =>
      if rowExpired row (input.ttlMs.getD DEFAULT_TTL_MS) now then
        .ok (⟨(s.rows.filter fun r => !(r.id == trimChars input.id)) ++
              [freshIdemRow (trimChars input.id) input now]⟩,
             .claimed)
      else if !(row.method == input.method) || !(row.path == input.path)
          || !(row.bodySha == input.bodySha) then
        .ok (s, .conflict "idempotency_key_reused_with_different_payload".data)
      else
        match row.responseStatus, row.responseBody with
        | some st, some b => .ok (s, .replay st b)
        | _, _ => .ok (s, .locked)

/-- `IdempotencyStore.persistResponse`: store the response on the row. -/
def IdemStore.persistResponse (s : IdemStore) (id : Str) (status : Int)
    (body : Str) : IdemStore :=
  ⟨s.rows.map fun r =>
    if r.id == id then { r with responseStatus := some status, responseBody := some body }
    else r⟩

/-- `IdempotencyStore.release`: delete the reservation. -/
def IdemStore.release (s : IdemStore) (id : Str) : IdemStore :=
  ⟨s.rows.filter fun r => !(r.id == id)⟩

/-! ## HMAC signature module

Embedding of `apps/web/src/lib/hmac.ts`.  The two cryptographic
primitives (`crypto.createHash("sha256")` and
`crypto.createHmac("sha256", …)`) are opaque parameters, bundled in
`Crypto`; theorems assume only the shape of their hex digests
(64 lowercase hex characters) and, where a claim needs it,
collision-freedom at the relevant pair of inputs. -/

structure Crypto where
  sha256 : Str → Str
  hmacSha256 : Str → Str → Str

/-- A hex digest as produced by Node's `digest("hex")` for SHA-256:
64 lowercase hex characters. -/
def isSha256Hex (s : Str) : Prop :=
  s.length = 64 ∧ ∀ c ∈ s, c ∈ hexDigitsLower

/-- Incoming request: header list (names lowercased, as Next.js
normalises them) and raw body text. -/
structure Request where
  headers : List (Str × Str)
  body : Str
deriving Repr, DecidableEq

/-- `headers.get(name)`: `none` models `null`. -/
def getHeader (req : Request) (name : Str) : Option Str :=
  (req.headers.find? fun p => p.1 == name).map (·.2)

def SIG_HEADER : Str := "x-f402-sig".data
def SIG_HEADER_LEGACY : Str := "x-flow402-signature".data
def BODY_HASH_HEADER : Str := "x-f402-body-sha".data
def ALLOWED_SKEW_SECONDS : Int := 5 * 60

/-- `getSignatureHeader`: first candidate header with a truthy
(non-empty) value, preferring `x-f402-sig` over the legacy name. -/
def getSignatureHeader (req : Request) : Option Str :=
  match getHeader req SIG_HEADER with
  | some v =>
    if v ≠ [] then some v
    else
      match getHeader req SIG_HEADER_LEGACY with
      | some w => if w ≠ [] then some w else none
      | none => none
  | none =>
    match getHeader req SIG_HEADER_LEGACY with
    | some w => if w ≠ [] then some w else none
    | none => none

/-- `normalizeHex`: trim and lowercase (`""` for `null` is handled at
call sites via `Option.getD`). -/
def normalizeHex (s : Str) : Str := toLowerStr (trimChars s)

/-- `timingSafeEqualHex`: length-check the hex strings, decode both and
compare the byte buffers (`crypto.timingSafeEqual` on equal-length
buffers is plain equality; `Buffer.from(_, "hex")` never throws). -/
def timingSafeEqualHex (a b : Str) : Bool :=
  if a = [] || b = [] || !(a.length == b.length) then false
  else
    let aBuf := decodeHex a
    let bBuf := decodeHex b
    if !(aBuf.length == bBuf.length) then false else aBuf == bBuf

/-- `hashBody`: hex SHA-256 of the body. -/
def hashBody (crypto : Crypto) (body : Str) : Str := crypto.sha256 body

structure SignatureComputation where
  header : Str
  digest : Str
  timestamp : Int
deriving Repr, DecidableEq

/-- `computeSig(secret, body, timestamp)`; `none` models the thrown
`Error("Signing secret is required")`.  The timestamp is required here
(the TS default `Date.now()/1000` is environment input). -/
def computeSig (crypto : Crypto) (secret body : Str) (timestamp : Int) :
    Option SignatureComputation :=
  if secret = [] then none
  else
    let digest := crypto.hmacSha256 secret (intToStr timestamp ++ '.' :: body)
    some ⟨"t=".data ++ intToStr timestamp ++ ",v1=".data ++ digest, digest, timestamp⟩

/-- Body of the `for (const part of parts)` loop in
`parseSignatureHeader`, after `part.split("=")` has produced the
trimmed `key` and `value`: skip falsy ones, record `t` only when
`Number.parseInt` is finite, and record `v1` normalised. -/
def parsePartKV (st : Option Int × Option Str) (key value : Str) :
    Option Int × Option Str :=
  if key = [] || value = [] then st
  else if key = "t".data then
    match jsParseInt value with
    | some n => (some n, st.2)
    | none => st
  else if key = "v1".data then (st.1, some (normalizeHex value))
  else st

/-- One step of the loop: `const [rawKey, rawValue] = part.split("=")`
followed by the trims (`undefined` entries read as empty). -/
def parsePart (st : Option Int × Option Str) (part : Str) :
    Option Int × Option Str :=
  parsePartKV st (trimChars ((splitOnChar '=' part).headD []))
    (trimChars (((splitOnChar '=' part).drop 1).headD []))

structure ParsedSig where
  timestamp : Int
  signature : Str
deriving Repr, DecidableEq

/-- `parseSignatureHeader`: split on commas, fold the parts, and apply
the final JS falsiness check `if (!timestamp || !signature) return null`
(which also rejects a parsed `t` of `0`). -/
def parseSignatureHeader (header : Str) : Option ParsedSig :=
  let parts := (splitOnChar ',' header).map trimChars
  match parts.foldl parsePart (none, none) with
  | (some t, some sig) => if t = 0 || sig = [] then none else some ⟨t, sig⟩
  | _ => none

/-- Verification outcomes of `verify` (success and failure record the
body that was read from the request). -/
inductive VerificationResult where
  | ok (body : Str) (timestamp : Int) (signature : Str)
  | fail (body : Str) (reason : Str)
deriving Repr, DecidableEq

/-- `verify(req, secret, { now })`.  The outer `Option` models the
exception thrown by `computeSig` when the secret is empty; every
in-band outcome is `some`. -/
def verify (crypto : Crypto) (req : Request) (secret : Str) (now : Int) :
    Option VerificationResult :=
  let body := req.body
  match getSignatureHeader req with
  | none => some (.fail body "missing_signature_header".data)
  | some headerValue =>
    match parseSignatureHeader headerValue with
    | none => some (.fail body "invalid_signature_format".data)
    | some parsed =>
      if ALLOWED_SKEW_SECONDS < |now - parsed.timestamp| then
        some (.fail body "timestamp_out_of_window".data)
      else
        let bodyHashHeader := normalizeHex ((getHeader req BODY_HASH_HEADER).getD [])
        if bodyHashHeader = [] then some (.fail body "missing_body_hash".data)
        else if !timingSafeEqualHex bodyHashHeader (hashBody crypto body) then
          some (.fail body "body_hash_mismatch".data)
        else
          match computeSig crypto secret body parsed.timestamp with
          | none => none
          | some computed =>
            if !timingSafeEqualHex parsed.signature computed.digest then
              some (.fail body "signature_mismatch".data)
            else
              some (.ok body parsed.timestamp parsed.signature)

/-- A request signed the way the test helper and the vendor demo build
requests: the body-hash header carries `hashBody` of the body and the
signature header carries the `computeSig` header string. -/
def signedRequest (crypto : Crypto) (secret body : Str) (t : Int) : Request :=
  { headers := [
      (BODY_HASH_HEADER, hashBody crypto body),
      (SIG_HEADER,
        match computeSig crypto secret body t with
        | some c => c.header
        | none => [])],
    body := body }

/-- Executable stand-in for the SHA-256 / HMAC digests in concrete
witnesses: one digit derived from the input followed by 63 `'0'`s, so
every output is a 64-character lowercase hex string. -/
def toyDigest (s : Str) : Str :=
  digitChar ((s.foldl (fun a c => a + c.toNat) 0) % 10) :: List.replicate 63 '0'

def toyCrypto : Crypto :=
  ⟨toyDigest, fun secret msg => toyDigest (secret ++ msg)⟩

/-! ## Typed DAL (`apps/web/src/lib/dal.ts`)

The `Flow402Dal` methods the route handlers use; a thrown
`Flow402Error` is again an `Except.error`.  Supabase I/O failures are
outside the model (every store operation succeeds), and zod's UUID
regex is rendered as the 8-4-4-4-12 hex shape check `isUuidLike`
(version/variant digit restrictions dropped — no claim depends on
them). -/

/-- Hex digit of either case. -/
def isHexDigitB (c : Char) : Bool :=
  decide ('0' ≤ c ∧ c ≤ '9') || decide ('a' ≤ c ∧ c ≤ 'f')
    || decide ('A' ≤ c ∧ c ≤ 'F')

/-- Shape check behind `z.string().uuid()`: five dash-separated hex
groups of lengths 8-4-4-4-12. -/
def isUuidLike (s : Str) : Bool :=
  match splitOnChar '-' s with
  | [a, b, c, d, e] =>
    a.length == 8 && b.length == 4 && c.length == 4 && d.length == 4
      && e.length == 12 && (a ++ b ++ c ++ d ++ e).all isHexDigitB
  | _ => false

/-- Row of the `tenants` table as selected by the DAL. -/
structure Vendor where
  id : Str
  slug : Str
  name : Str
  api_key : Str
  signing_secret : Str
deriving Repr, DecidableEq

/-- `Flow402ErrorCode` values reachable from the embedded routes,
with the status each `Flow402Error` construction passes
(`options.status ?? 400`). -/
inductive DalErr where
  /-- `validation_error`, status 400 -/
  | validationError
  /-- `vendor_not_found`, status 404 -/
  | vendorNotFound
  /-- `mutation_guard_failed`, status 400 -/
  | mutationGuardFailed
  /-- `insufficient_funds`, status 402 -/
  | insufficientFunds
  /-- `mutation_failed`, status 400 -/
  | mutationFailed
deriving Repr, DecidableEq

def DalErr.code : DalErr → Str
  | .validationError => "validation_error".data
  | .vendorNotFound => "vendor_not_found".data
  | .mutationGuardFailed => "mutation_guard_failed".data
  | .insufficientFunds => "insufficient_funds".data
  | .mutationFailed => "mutation_failed".data

def DalErr.status : DalErr → Int
  | .vendorNotFound => 404
  | .insufficientFunds => 402
  | _ => 400

/-- `supabase.from("tenants").select(…).eq(column, value).maybeSingle()`. -/
def fetchVendor (tenants : List Vendor) (column : Vendor → Str)
    (value : Str) : Option Vendor :=
  tenants.find? fun v => column v == value

/-- `Flow402Dal.getVendorByKey`: trim, minimum length 4
(`apiKeySchema`), then probe `api_key`, `slug`, and — only for
UUID-shaped keys — `id`; first match wins. -/
def getVendorByKey (tenants : List Vendor) (apiKey : Str) :
    Except DalErr Vendor :=
  let parsedKey := trimChars apiKey
  if parsedKey.length < 4 then .error .validationError
  else
    match fetchVendor tenants (·.api_key) parsedKey with
    | some v => .ok v
    | none =>
      match fetchVendor tenants (·.slug) parsedKey with
      | some v => .ok v
      | none =>
        if isUuidLike parsedKey then
          match fetchVendor tenants (·.id) parsedKey with
          | some v => .ok v
          | none => .error .vendorNotFound
        else .error .vendorNotFound

/-- `Flow402Dal.ensureVendorUser` (no `userEth` argument at the call
sites embedded here): validate both UUIDs, return the existing
`(vendor_id, user_id)` row or lazily insert it.  The returned pair's
second component is the `user_id` the routes read. -/
def ensureVendorUser (db : DB) (vendorId userExternalId : Str) :
    Except DalErr (DB × (Str × Str)) :=
  if !isUuidLike vendorId then .error .validationError
  else if !isUuidLike userExternalId then .error .validationError
  else
    match db.vendorUsers.find? (fun p => p.1 == vendorId && p.2 == userExternalId) with
    | some p => .ok (db, p)
    | none =>
      .ok ({ db with vendorUsers := db.vendorUsers ++ [(vendorId, userExternalId)] },
           (vendorId, userExternalId))

/-- `Flow402Dal.getBalance`: validate the UUIDs, then
`credits … maybeSingle()`; a missing row reads as
`{ credits: 0, currency: "USDC" }` (only the credits figure is used by
callers). -/
def dalGetBalance (db : DB) (vendorId vendorUserId : Str) :
    Except DalErr Int :=
  if !isUuidLike vendorId then .error .validationError
  else if !isUuidLike vendorUserId then .error .validationError
  else .ok ((lookupCredit db vendorId vendorUserId).getD 0)

/-- `Flow402Dal.incrementBalance`: schema validation
(`balanceMutationInputSchema`), the delta-sign/ref guards
(`enforceBalanceGuards`), then dispatch on the mutation kind to the
`increment_balance` or `deduct_balance` RPC with `amount =
Math.abs(deltaCredits)`.  Only a `deduct_balance` failure whose message
is `insufficient_funds` maps to the 402 error; asymmetric by design in
the source. -/
def dalIncrementBalance (db : DB) (vendorId vendorUserId : Str)
    (deltaCredits : Int) (kind : Str) (ref : Option Str) (genRef : Str) :
    Except DalErr (DB × Int) :=
  if !isUuidLike vendorId then .error .validationError
  else if !isUuidLike vendorUserId then .error .validationError
  else if !(kind == "debit".data || kind == "credit".data || kind == "fee".data) then
    .error .validationError
  else if (ref.map fun r => decide (r.length < 4)).getD false then .error .validationError
  else if kind == "credit".data && deltaCredits ≤ 0 then .error .mutationGuardFailed
  else if !(kind == "credit".data) && deltaCredits ≥ 0 then .error .mutationGuardFailed
  else if !(kind == "credit".data) && ref = none then .error .mutationGuardFailed
  else
    let amount := |deltaCredits|
    if kind == "credit".data then
      match increment_balance db vendorId vendorUserId amount "topup".data ref genRef with
      | .ok r => .ok r
      | .error _ => .error .mutationFailed
    else
      match deduct_balance db vendorId vendorUserId amount (ref.getD []) with
      | .ok r => .ok r
      | .error .insufficientFunds => .error .insufficientFunds
      | .error _ => .error .mutationFailed

/-! ## Route handlers -/

/-- Parsed gateway deduct body:
`{ userId: uuid, ref: string[≥6], amount_credits: int > 0 }`. -/
structure DeductBody where
  userId : Str
  ref : Str
  amount_credits : Int
deriving Repr, DecidableEq

/-- Responses of `POST /api/gateway/deduct`
(`apps/web/src/app/api/gateway/deduct/route.ts`). -/
inductive DeductResponse where
  /-- 500 `tenant_not_configured` -/
  | tenantNotConfigured
  /-- 401 `{error: "invalid_signature", reason, request_id}` -/
  | invalidSignature (reason : Str)
  /-- 402 paywall envelope `{price_credits, currency, topup_url}` -/
  | paywall (priceCredits : Int) (userId : Str)
  /-- 200 `{ok: true, new_balance}` -/
  | success (newBalance : Int)
  /-- 400 `{ok: false, error: "invalid_request", details}` -/
  | invalidRequest
  /-- `{ok: false, error: code, details}` with the error's status -/
  | flowError (code : Str) (status : Int)
  /-- 500 `{ok: false, error: "unknown_error"}` -/
  | unknownError
deriving Repr, DecidableEq

def DeductResponse.httpStatus : DeductResponse → Int
  | .tenantNotConfigured => 500
  | .invalidSignature _ => 401
  | .paywall _ _ => 402
  | .success _ => 200
  | .invalidRequest => 400
  | .flowError _ s => s
  | .unknownError => 500

/-- `POST` of `apps/web/src/app/api/gateway/deduct/route.ts` (the file
served at `/api/gateway/deduct`).  `parseBody` abstracts
`Body.parse(JSON.parse(…))`; `none` covers both `SyntaxError` and
`ZodError`, which the handler answers identically (400
`invalid_request`).  The handler performs no idempotency processing of
any kind — it never reads an `Idempotency-Key` header and holds no
`IdempotencyStore`. -/
def deductRoute (crypto : Crypto) (parseBody : Str → Option DeductBody)
    (tenants : List Vendor) (tenantId : Option Str) (db : DB)
    (req : Request) (now : Int) : DeductResponse × DB :=
  match tenantId with
  | none => (.tenantNotConfigured, db)
  | some scopedTenantId =>
    let vendorKey := trimChars ((getHeader req "x-f402-key".data).getD [])
    if vendorKey = [] then (.invalidSignature "missing_vendor_key".data, db)
    else
      match getVendorByKey tenants vendorKey with
      | .error .vendorNotFound => (.invalidSignature "unknown_vendor".data, db)
      | .error e => (.flowError e.code e.status, db)
      | .ok vendor =>
        if vendor.id ≠ scopedTenantId then
          (.invalidSignature "vendor_mismatch".data, db)
        else
          match verify crypto req vendor.signing_secret now with
          | none => (.unknownError, db)
          | some (.fail _ reason) => (.invalidSignature reason, db)
          | some (.ok body _ _) =>
            match parseBody body with
            | none => (.invalidRequest, db)
            | some pb =>
              match ensureVendorUser db scopedTenantId pb.userId with
              | .error e => (.flowError e.code e.status, db)
              | .ok (db1, vendorUser) =>
                match dalGetBalance db1 scopedTenantId vendorUser.2 with
                | .error e => (.flowError e.code e.status, db1)
                | .ok balance =>
                  if balance < pb.amount_credits then
                    (.paywall pb.amount_credits pb.userId, db1)
                  else
                    match dalIncrementBalance db1 scopedTenantId vendorUser.2
                        (-pb.amount_credits) "debit".data (some pb.ref) [] with
                    | .error .insufficientFunds =>
                      (.paywall pb.amount_credits pb.userId, db1)
                    | .error e => (.flowError e.code e.status, db1)
                    | .ok (db2, newBalance) => (.success newBalance, db2)

/-- Responses of `POST /api/topup/reset`. -/
inductive ResetResult where
  /-- 200 `{ok: true, previous_balance_credits, new_balance_credits: 0}` -/
  | success (previousBalanceCredits : Int)
deriving Repr, DecidableEq

/-- Set every `credits` row keyed `(t, u)` to balance `0`
(`update credits set balance_cents = 0 where …`). -/
def setCreditZero (t u : Str) (rows : List CreditRow) : List CreditRow :=
  rows.map fun c =>
    if c.tenant == t && c.user == u then { c with balance := 0 } else c

/-- `POST` of `apps/web/src/app/api/topup/reset/route.ts`.  The body's
optional `userId` defaults to the demo user; `nowMs` is `Date.now()`.
Store failures (each answered with a 500) are outside the model, so the
embedded handler always reaches the 200 response. -/
def resetRoute (db : DB) (tenantId : Str) (userId : Option Str)
    (demoUserId : Str) (nowMs : Nat) : ResetResult × DB :=
  let user := userId.getD demoUserId
  let current := lookupCredit db tenantId user
  let previousBalanceCredits := current.getD 0
  let db1 : DB :=
    match current with
    | none => { db with credits := db.credits ++ [⟨tenantId, user, 0⟩] }
    | some _ => { db with credits := setCreditZero tenantId user db.credits }
  let db2 : DB :=
    if previousBalanceCredits > 0 then
      { db1 with txLedger := db1.txLedger ++
          [⟨tenantId, user, "manual_reset".data, previousBalanceCredits,
            "manual_reset_".data ++ natToStr nowMs⟩] }
    else db1
  (.success previousBalanceCredits, db2)

/-- Responses of `GET /api/balance`. -/
inductive BalanceResult where
  /-- 200 `{balance_credits}` -/
  | ok (balanceCredits : Int)
  /-- 400 `{error: "userId required"}` -/
  | badRequest
deriving Repr, DecidableEq

def BalanceResult.httpStatus : BalanceResult → Int
  | .ok _ => 200
  | .badRequest => 400

/-- `GET` of `apps/web/src/app/api/balance/route.ts`: a missing
`userId` query parameter is a 400; otherwise `credits … single()` is
read, the no-row error `PGRST116` is swallowed, and the balance
defaults to `0`. -/
def balanceRoute (db : DB) (tenantId : Str) (userId : Option Str) :
    BalanceResult :=
  match userId with
  | none => .badRequest
  | some u =>
    match lookupCredit db tenantId u with
    | none => .ok 0
    | some b => .ok b

/-- Demo tenant UUID seeded by the migration. -/
def demoTenant : Str := "0b7d4b0a-6e10-4db4-8571-2c74e07bcb35".data

/-- Demo user UUID used throughout the repository's examples. -/
def demoUser : Str := "9c0383a1-0887-4c0f-98ca-cb71ffc4e76c".data

/-- The seeded demo tenant row with its API key and signing secret. -/
def demoVendor : Vendor :=
  ⟨demoTenant, "demo".data, "Flow402 Demo Tenant".data, "demo-key-123".data,
   "demo-signing-secret".data⟩

/-- Ledger state with the demo user holding 100 credits. -/
def demoDb : DB := ⟨[⟨demoTenant, demoUser, 100⟩], [], [(demoTenant, demoUser)]⟩

/-- A correctly signed gateway deduct request (vendor key header plus
the two signature headers) that carries NO `Idempotency-Key` header. -/
def demoDeductRequest : Request :=
  { headers := ("x-f402-key".data, "demo-key-123".data) ::
      (signedRequest toyCrypto "demo-signing-secret".data "x".data
        1729200000).headers,
    body := "x".data }

/-- Body-parse oracle standing in for `Body.parse(JSON.parse(…))` on
the demo request: the signed body decodes to a debit of 5 credits. -/
def demoParseBody : Str → Option DeductBody := fun s =>
  if s == "x".data then some ⟨demoUser, "demo-ref".data, 5⟩ else none

/-! ## Lemmas about the conditional update and the upsert -/

/-- The row predicate used by `lookupCredit` and the credit mutations. -/
def keyMatch (t u : Str) (x : CreditRow) : Bool :=
  x.tenant == t && x.user == u

lemma lookupCredit_def (db : DB) (t u : Str) :
    lookupCredit db t u = (db.credits.find? (keyMatch t u)).map (·.balance) := rfl

lemma conditionalDeduct_found (t u : Str) (a : Int) :
    ∀ (rows : List CreditRow) (c : CreditRow),
      rows.find? (keyMatch t u) = some c →
      a ≤ c.balance →
      ∃ rows', conditionalDeduct t u a rows = some (rows', c.balance - a) ∧
        rows'.find? (keyMatch t u) = some { c with balance := c.balance - a } := by
  intro rows
  induction rows with
  | nil => intro c h _; simp at h
  | cons r rest ih =>
    intro c h hle
    cases hm : keyMatch t u r with
    | true =>
      rw [List.find?_cons, hm] at h
      obtain rfl : r = c := by injection h
      refine ⟨{ r with balance := r.balance - a } :: rest, ?_, ?_⟩
      · unfold conditionalDeduct
        rw [if_pos]
        have := hm
        unfold keyMatch at this
        rw [this, decide_eq_true hle]
        rfl
      · rw [List.find?_cons]
        have : keyMatch t u { r with balance := r.balance - a } = true := by
          unfold keyMatch at hm ⊢; exact hm
        rw [this]
    | false =>
      rw [List.find?_cons, hm] at h
      obtain ⟨rows', h1, h2⟩ := ih c h hle
      refine ⟨r :: rows', ?_, ?_⟩
      · unfold conditionalDeduct
        rw [if_neg, h1]
        · rfl
        · unfold keyMatch at hm
          rw [hm, Bool.false_and]
          exact Bool.false_ne_true
      · rw [List.find?_cons, hm]
        exact h2

lemma conditionalDeduct_no_match (t u : Str) (a : Int) :
    ∀ rows : List CreditRow,
      (∀ r ∈ rows, keyMatch t u r = false) →
      conditionalDeduct t u a rows = none := by
  intro rows
  induction rows with
  | nil => intro _; rfl
  | cons r rest ih =>
    intro h
    unfold conditionalDeduct
    rw [if_neg, ih fun x hx => h x (List.mem_cons_of_mem r hx)]
    · rfl
    · have hr := h r (List.mem_cons_self r rest)
      unfold keyMatch at hr
      rw [hr, Bool.false_and]
      exact Bool.false_ne_true

lemma conditionalDeduct_insufficient (t u : Str) (a : Int) :
    ∀ rows : List CreditRow, creditsWF rows →
      (∀ c, rows.find? (keyMatch t u) = some c → c.balance < a) →
      conditionalDeduct t u a rows = none := by
  intro rows
  induction rows with
  | nil => intro _ _; rfl
  | cons r rest ih =>
    intro hwf h
    rcases List.pairwise_cons.mp hwf with ⟨hhead, htail⟩
    cases hm : keyMatch t u r with
    | true =>
      have hlt : r.balance < a := h r (by rw [List.find?_cons, hm])
      unfold conditionalDeduct
      rw [if_neg, conditionalDeduct_no_match]
      · rfl
      · intro x hx
        have hmx := hm
        unfold keyMatch at hmx
        rcases Bool.and_eq_true_iff.mp hmx with ⟨hmt, hmu⟩
        rw [beq_iff_eq] at hmt hmu
        have hne := hhead x hx
        unfold keyMatch
        by_contra hxt
        rw [Bool.not_eq_false] at hxt
        rcases Bool.and_eq_true_iff.mp hxt with ⟨hxt1, hxt2⟩
        rw [beq_iff_eq] at hxt1 hxt2
        exact hne ⟨by rw [hmt, hxt1], by rw [hmu, hxt2]⟩
      · have hmx := hm
        unfold keyMatch at hmx
        rw [hmx, Bool.true_and]
        rw [decide_eq_false]
        · exact Bool.false_ne_true
        · omega
    | false =>
      unfold conditionalDeduct
      rw [if_neg, ih htail]
      · rfl
      · intro c hc
        exact h c (by rw [List.find?_cons, hm]; exact hc)
      · unfold keyMatch at hm
        rw [hm, Bool.false_and]
        exact Bool.false_ne_true

lemma upsertCredit_nonneg (t u : Str) (a : Int) (ha : 0 < a) :
    ∀ rows : List CreditRow, (∀ c ∈ rows, 0 ≤ c.balance) →
      ∀ c ∈ (upsertCredit t u a rows).1, 0 ≤ c.balance := by
  intro rows
  induction rows with
  | nil =>
    intro _ c hc
    simp only [upsertCredit, List.mem_singleton] at hc
    subst hc; simp only; omega
  | cons r rest ih =>
    intro h0 c hc
    unfold upsertCredit at hc
    cases hm : (r.tenant == t && r.user == u) with
    | true =>
      rw [hm, if_pos rfl] at hc
      rcases List.mem_cons.mp hc with hc | hc
      · subst hc
        have := h0 r (List.mem_cons_self r rest)
        simp only; omega
      · exact h0 c (List.mem_cons_of_mem r hc)
    | false =>
      rw [hm] at hc
      simp only [Bool.false_eq_true, if_false] at hc
      rcases List.mem_cons.mp hc with hc | hc
      · subst hc; exact h0 c (List.mem_cons_self c rest)
      · exact ih (fun x hx => h0 x (List.mem_cons_of_mem r hx)) c hc

lemma conditionalDeduct_nonneg (t u : Str) (a : Int) :
    ∀ rows : List CreditRow, ∀ p : List CreditRow × Int,
      (∀ c ∈ rows, 0 ≤ c.balance) →
      conditionalDeduct t u a rows = some p →
      ∀ c ∈ p.1, 0 ≤ c.balance := by
  intro rows
  induction rows with
  | nil => intro p _ h; simp [conditionalDeduct] at h
  | cons r rest ih =>
    intro p h0 heq c hc
    unfold conditionalDeduct at heq
    by_cases hm : (r.tenant == t && r.user == u && decide (a ≤ r.balance)) = true
    · rw [if_pos hm] at heq
      injection heq with heq1
      subst heq1
      rcases List.mem_cons.mp hc with hc | hc
      · subst hc
        rcases Bool.and_eq_true_iff.mp hm with ⟨-, h6⟩
        rw [decide_eq_true_eq] at h6
        simp only; omega
      · exact h0 c (List.mem_cons_of_mem r hc)
    · rw [if_neg hm] at heq
      cases hrec : conditionalDeduct t u a rest with
      | none => rw [hrec] at heq; simp at heq
      | some q =>
        rw [hrec] at heq
        have heq2 : (r :: q.1, q.2) = p := by
          have h' : Option.some (r :: q.1, q.2) = some p := heq
          injection h'
        subst heq2
        rcases List.mem_cons.mp hc with hc | hc
        · subst hc; exact h0 c (List.mem_cons_self c rest)
        · exact ih q (fun x hx => h0 x (List.mem_cons_of_mem r hx)) hrec c hc

lemma deduct_balance_step (db : DB) (t u : Str) (a : Int) (r : Str)
    (hfresh : findLedgerKind? db t r = none) (href : sqlTrim r ≠ [])
    (ha : 0 < a) :
    deduct_balance db t u a r =
      match conditionalDeduct t u a db.credits with
      | none => .error .insufficientFunds
      | some (credits', newBal) =>
        .ok ({ db with
                 credits := credits',
                 txLedger := db.txLedger ++ [⟨t, u, "deduct".data, a, r⟩] },
             newBal) := by
  unfold deduct_balance
  rw [if_neg (show ¬ a ≤ 0 by omega), if_neg href, hfresh]

/-! ## Claim theorems for the ledger RPCs -/

/-- C1.  A `deduct_balance` call with a fresh `(tenant, ref)` pair:
when the `(tenant, user)` balance (`0` when no row exists) is at least
`amount`, the call commits, the balance drops by exactly `amount`, one
`deduct` journal row is appended and the new balance is returned; when
the balance is below `amount` the call raises `insufficient_funds`
(errcode `P0001`), aborting the transaction so neither table changes;
in particular `amount = balance` commits and leaves the balance `0`. -/
theorem deduct_balance_fresh_ref_correct (db : DB) (t u : Str) (a : Int)
    (r : Str)
    (hwf : creditsWF db.credits)
    (hfresh : findLedgerKind? db t r = none)
    (href : sqlTrim r ≠ [])
    (ha : 0 < a) :
    (a ≤ (lookupCredit db t u).getD 0 →
      ∃ db', deduct_balance db t u a r =
          .ok (db', (lookupCredit db t u).getD 0 - a) ∧
        lookupCredit db' t u = some ((lookupCredit db t u).getD 0 - a) ∧
        db'.txLedger = db.txLedger ++ [⟨t, u, "deduct".data, a, r⟩]) ∧
    ((lookupCredit db t u).getD 0 < a →
      deduct_balance db t u a r = .error .insufficientFunds) ∧
    (a = (lookupCredit db t u).getD 0 →
      ∃ db', deduct_balance db t u a r = .ok (db', 0) ∧
        lookupCredit db' t u = some 0) := by
  have hstep := deduct_balance_step db t u a r hfresh href ha
  have main : a ≤ (lookupCredit db t u).getD 0 →
      ∃ db', deduct_balance db t u a r =
          .ok (db', (lookupCredit db t u).getD 0 - a) ∧
        lookupCredit db' t u = some ((lookupCredit db t u).getD 0 - a) ∧
        db'.txLedger = db.txLedger ++ [⟨t, u, "deduct".data, a, r⟩] := by
    intro hle
    cases hlc : lookupCredit db t u with
    | none => rw [hlc] at hle; simp only [Option.getD_none] at hle; omega
    | some b =>
      rw [hlc] at hle
      simp only [Option.getD_some] at hle ⊢
      have hfind : ∃ c, db.credits.find? (keyMatch t u) = some c ∧
          c.balance = b := by
        rw [lookupCredit_def] at hlc
        cases hf : db.credits.find? (keyMatch t u) with
        | none => rw [hf] at hlc; simp at hlc
        | some c =>
          rw [hf] at hlc
          simp only [Option.map_some'] at hlc
          exact ⟨c, rfl, by injection hlc⟩
      obtain ⟨c, hf, hcb⟩ := hfind
      obtain ⟨rows', h1, h2⟩ :=
        conditionalDeduct_found t u a db.credits c hf (by omega)
      refine ⟨{ db with
                  credits := rows',
                  txLedger := db.txLedger ++ [⟨t, u, "deduct".data, a, r⟩] },
              ?_, ?_, rfl⟩
      · rw [hstep, h1, hcb]
      · rw [lookupCredit_def]
        simp only
        rw [h2, hcb]
        rfl
  refine ⟨main, ?_, ?_⟩
  · intro hlt
    rw [hstep, conditionalDeduct_insufficient t u a db.credits hwf]
    intro c hc
    rw [lookupCredit_def, hc] at hlt
    simpa using hlt
  · intro heq
    obtain ⟨db', e1, e2, -⟩ := main (le_of_eq heq)
    have hz : (lookupCredit db t u).getD 0 - a = 0 := by omega
    rw [hz] at e1 e2
    exact ⟨db', e1, e2⟩

/-- Witness for C1 at a concrete state: balance 5, debit of the full 5
with a fresh ref succeeds and leaves balance 0. -/
theorem deduct_balance_fresh_ref_correct_witness :
    creditsWF ([⟨demoTenant, demoUser, 5⟩] : List CreditRow) ∧
    (∃ db', deduct_balance ⟨[⟨demoTenant, demoUser, 5⟩], [], []⟩
        demoTenant demoUser 5 "demo-ref".data = .ok (db', 0) ∧
      lookupCredit db' demoTenant demoUser = some 0) :=
  ⟨by decide,
   (deduct_balance_fresh_ref_correct ⟨[⟨demoTenant, demoUser, 5⟩], [], []⟩
      demoTenant demoUser 5 "demo-ref".data (by decide) (by decide)
      (by decide) (by decide)).2.2 (by decide)⟩

/-- C5.  Starting from a state in which every balance is non-negative,
any committed `increment_balance` or `deduct_balance` leaves every
balance non-negative (the positivity guard of `increment_balance` is
internal, so the credit half needs no amount hypothesis). -/
theorem ledger_mutations_preserve_nonneg (db : DB) (h0 : nonNegBalances db) :
    (∀ t u a kind pRef genRef db' nb,
       increment_balance db t u a kind pRef genRef = .ok (db', nb) →
       nonNegBalances db') ∧
    (∀ t u a r db' nb,
       deduct_balance db t u a r = .ok (db', nb) → nonNegBalances db') := by
  constructor
  · intro t u a kind pRef genRef db' nb h
    unfold increment_balance at h
    split at h
    · exact absurd h (by simp)
    · rename_i hpos
      split at h
      · split at h
        · exact absurd h (by simp)
        · have hdb : db = db' := by
            injection h with h1
            injection h1 with h2 h3
          subst hdb
          exact h0
      · injection h with h1
        injection h1 with h2 h3
        subst h2
        intro c hc
        exact upsertCredit_nonneg t u a (by omega) db.credits h0 c hc
  · intro t u a r db' nb h
    unfold deduct_balance at h
    split at h
    · exact absurd h (by simp)
    · rename_i hpos
      split at h
      · exact absurd h (by simp)
      · rename_i hr
        split at h
        · split at h
          · exact absurd h (by simp)
          · have hdb : db = db' := by
              injection h with h1
              injection h1 with h2 h3
            subst hdb
            exact h0
        · split at h
          · exact absurd h (by simp)
          · rename_i cr nb2 hcd
            injection h with h1
            injection h1 with h2 h3
            subst h2
            intro c hc
            exact conditionalDeduct_nonneg t u a db.credits
              (cr, nb2) h0 hcd c hc

/-- Witness for C5: a concrete non-negative state stays non-negative
after a committed debit. -/
theorem ledger_mutations_preserve_nonneg_witness :
    nonNegBalances ⟨[⟨demoTenant, demoUser, 5⟩], [], []⟩ ∧
    nonNegBalances ⟨[⟨demoTenant, demoUser, 3⟩],
      [⟨demoTenant, demoUser, "deduct".data, 2, "demo-ref".data⟩], []⟩ :=
  ⟨by decide,
   (ledger_mutations_preserve_nonneg ⟨[⟨demoTenant, demoUser, 5⟩], [], []⟩
      (by decide)).2 demoTenant demoUser 2 "demo-ref".data
      ⟨[⟨demoTenant, demoUser, 3⟩],
       [⟨demoTenant, demoUser, "deduct".data, 2, "demo-ref".data⟩], []⟩ 3
      (by rfl)⟩

/-- C6 counterexample: the claim reads `adjustment` as a replayable
credit kind, but `increment_balance` replays only refs whose existing
journal kind is exactly `topup`; a ref recorded with kind `adjustment`
raises the `P0002` ref-class error instead of replaying. -/
theorem increment_balance_adjustment_ref_conflicts :
    increment_balance
      ⟨[⟨demoTenant, demoUser, 7⟩],
       [⟨demoTenant, demoUser, "adjustment".data, 5, "adj-ref-1".data⟩], []⟩
      demoTenant demoUser 5 "topup".data (some "adj-ref-1".data) []
      = .error .refUsedForNonTopup := by rfl

/-- C6 amended.  When a `JournalEntry(tenant, ref)` already exists for
the resolved ref, `increment_balance` returns the current balance
unchanged only when that entry's kind is exactly `topup`; any other
kind — `adjustment` included — raises the ref-class error `P0002`, and
in both cases the state is unchanged. -/
theorem increment_balance_existing_ref (db : DB) (t u : Str) (a : Int)
    (kind : Str) (pRef : Option Str) (genRef : Str) (k : Str)
    (ha : 0 < a)
    (hfound : findLedgerKind? db t (incRef pRef genRef) = some k) :
    (k = "topup".data →
       increment_balance db t u a kind pRef genRef =
         .ok (db, (lookupCredit db t u).getD 0)) ∧
    (k ≠ "topup".data →
       increment_balance db t u a kind pRef genRef =
         .error .refUsedForNonTopup) := by
  unfold increment_balance
  rw [if_neg (show ¬ a ≤ 0 by omega)]
  simp only [hfound]
  constructor
  · intro hk
    rw [if_neg (by simpa using hk)]
  · intro hk
    rw [if_pos hk]

/-- Witness for C6's amended theorem: a `topup`-ref replay returns the
balance unchanged, an `adjustment`-ref raises the ref-class error. -/
theorem increment_balance_existing_ref_witness :
    ((0 : Int) < 5 ∧
     increment_balance
       ⟨[⟨demoTenant, demoUser, 7⟩],
        [⟨demoTenant, demoUser, "topup".data, 5, "top-ref-1".data⟩], []⟩
       demoTenant demoUser 5 "topup".data (some "top-ref-1".data) []
       = .ok (⟨[⟨demoTenant, demoUser, 7⟩],
               [⟨demoTenant, demoUser, "topup".data, 5, "top-ref-1".data⟩], []⟩, 7)) ∧
    increment_balance
      ⟨[⟨demoTenant, demoUser, 7⟩],
       [⟨demoTenant, demoUser, "adjustment".data, 5, "adj-ref-2".data⟩], []⟩
      demoTenant demoUser 5 "topup".data (some "adj-ref-2".data) []
      = .error .refUsedForNonTopup :=
  ⟨⟨by decide,
    (increment_balance_existing_ref
      ⟨[⟨demoTenant, demoUser, 7⟩],
       [⟨demoTenant, demoUser, "topup".data, 5, "top-ref-1".data⟩], []⟩
      demoTenant demoUser 5 "topup".data (some "top-ref-1".data) []
      "topup".data (by decide) (by rfl)).1 rfl⟩,
   (increment_balance_existing_ref
      ⟨[⟨demoTenant, demoUser, 7⟩],
       [⟨demoTenant, demoUser, "adjustment".data, 5, "adj-ref-2".data⟩], []⟩
      demoTenant demoUser 5 "topup".data (some "adj-ref-2".data) []
      "adjustment".data (by decide) (by rfl)).2 (by decide)⟩

/-! ## Claim theorems for the idempotency store -/

/-- C4.  The `claim` operation realises the per-key state machine: an
absent row claims (fresh reserved insert); an expired row (older than
the 24 h TTL) is deleted and the fresh reservation inserted, claiming;
a live row answers `locked` when reserved and matching, `replay` when
completed and matching, and `conflict` on any payload mismatch. -/
theorem idem_claim_state_machine (s : IdemStore) (input : ClaimInput)
    (now : Int)
    (hkey : trimChars input.id ≠ [])
    (httl : input.ttlMs = none) :
    (s.rows.find? (fun r => r.id == trimChars input.id) = none →
       s.claimFn input now =
         .ok (⟨s.rows ++ [freshIdemRow (trimChars input.id) input now]⟩,
              .claimed)) ∧
    (∀ row, s.rows.find? (fun r => r.id == trimChars input.id) = some row →
      (rowExpired row DEFAULT_TTL_MS now = true →
         s.claimFn input now =
           .ok (⟨(s.rows.filter fun r => !(r.id == trimChars input.id)) ++
                 [freshIdemRow (trimChars input.id) input now]⟩,
                .claimed)) ∧
      (rowExpired row DEFAULT_TTL_MS now = false →
        ((row.method = input.method ∧ row.path = input.path ∧
            row.bodySha = input.bodySha) →
          (row.responseStatus = none ∧ row.responseBody = none →
             s.claimFn input now = .ok (s, .locked)) ∧
          (∀ st b, row.responseStatus = some st → row.responseBody = some b →
             s.claimFn input now = .ok (s, .replay st b))) ∧
        (¬(row.method = input.method ∧ row.path = input.path ∧
             row.bodySha = input.bodySha) →
          s.claimFn input now =
            .ok (s, .conflict
              "idempotency_key_reused_with_different_payload".data)))) := by
  constructor
  · intro hnone
    unfold IdemStore.claimFn
    rw [if_neg hkey]
    simp only [hnone]
  · intro row hfind
    have hbase : s.claimFn input now =
        if rowExpired row (input.ttlMs.getD DEFAULT_TTL_MS) now then
          .ok (⟨(s.rows.filter fun r => !(r.id == trimChars input.id)) ++
                [freshIdemRow (trimChars input.id) input now]⟩, .claimed)
        else if !(row.method == input.method) || !(row.path == input.path)
            || !(row.bodySha == input.bodySha) then
          .ok (s, .conflict "idempotency_key_reused_with_different_payload".data)
        else
          match row.responseStatus, row.responseBody with
          | some st, some b => .ok (s, .replay st b)
          | _, _ => .ok (s, .locked) := by
      unfold IdemStore.claimFn
      rw [if_neg hkey]
      simp only [hfind]
    rw [httl] at hbase
    simp only [Option.getD_none] at hbase
    constructor
    · intro hexp
      rw [hbase, if_pos hexp]
    · intro hlive
      rw [hbase, if_neg (by rw [hlive]; exact Bool.false_ne_true)]
      constructor
      · intro hm
        have hmismatch : (!(row.method == input.method)
            || !(row.path == input.path)
            || !(row.bodySha == input.bodySha)) = false := by
          simp [hm.1, hm.2.1, hm.2.2]
        rw [if_neg (by rw [hmismatch]; exact Bool.false_ne_true)]
        constructor
        · intro hres
          rw [hres.1, hres.2]
        · intro st b hst hb
          rw [hst, hb]
      · intro hm
        have hmismatch : (!(row.method == input.method)
            || !(row.path == input.path)
            || !(row.bodySha == input.bodySha)) = true := by
          by_contra hcontra
          rw [Bool.not_eq_true] at hcontra
          simp only [Bool.or_eq_false_iff, Bool.not_eq_false', beq_iff_eq]
            at hcontra
          exact hm ⟨hcontra.1.1, hcontra.1.2, hcontra.2⟩
        rw [if_pos hmismatch]

/-- Witness for C4: an empty store claims, and a completed matching row
replays its stored response. -/
theorem idem_claim_state_machine_witness :
    (IdemStore.claimFn ⟨[]⟩ ⟨"key-1".data, "POST".data, "/p".data,
        "sha".data, none⟩ 50 =
      .ok (⟨[⟨"key-1".data, "POST".data, "/p".data, "sha".data,
              none, none, 50⟩]⟩, .claimed)) ∧
    (IdemStore.claimFn
        ⟨[⟨"key-1".data, "POST".data, "/p".data, "sha".data,
           some 200, some "body".data, 50⟩]⟩
        ⟨"key-1".data, "POST".data, "/p".data, "sha".data, none⟩ 60 =
      .ok (⟨[⟨"key-1".data, "POST".data, "/p".data, "sha".data,
              some 200, some "body".data, 50⟩]⟩,
           .replay 200 "body".data)) :=
  ⟨(idem_claim_state_machine ⟨[]⟩
      ⟨"key-1".data, "POST".data, "/p".data, "sha".data, none⟩ 50
      (by decide) rfl).1 (by rfl),
   (((idem_claim_state_machine
      ⟨[⟨"key-1".data, "POST".data, "/p".data, "sha".data,
         some 200, some "body".data, 50⟩]⟩
      ⟨"key-1".data, "POST".data, "/p".data, "sha".data, none⟩ 60
      (by decide) rfl).2
      ⟨"key-1".data, "POST".data, "/p".data, "sha".data,
       some 200, some "body".data, 50⟩ (by rfl)).2 (by decide)).1
      (by exact ⟨rfl, rfl, rfl⟩) |>.2 200 "body".data rfl rfl⟩

/-- C10.  The store trims the idempotency key before use: two claims
whose keys agree after trimming are indistinguishable (same reservation
row, same outcome), and a key that trims to empty throws the 400
`Flow402Error` before any store access (the `Except.error` carries no
successor store, modelling the exception thrown ahead of the insert). -/
theorem idem_claim_key_trimming (s : IdemStore) (input : ClaimInput)
    (k1 k2 : Str) (now : Int) :
    (trimChars k1 = trimChars k2 →
      s.claimFn { input with id := k1 } now =
        s.claimFn { input with id := k2 } now) ∧
    (trimChars k1 = [] →
      s.claimFn { input with id := k1 } now =
        .error ⟨"idempotency_conflict".data, 400⟩) := by
  constructor
  · intro h
    unfold IdemStore.claimFn
    simp only [freshIdemRow]
    rw [h]
  · intro h
    unfold IdemStore.claimFn
    simp only at h ⊢
    rw [if_pos h]

/-- Witness for C10: keys padded with whitespace hit the same row as
the bare key, and a whitespace-only key is rejected with status 400. -/
theorem idem_claim_key_trimming_witness :
    (IdemStore.claimFn ⟨[]⟩
        ⟨"  key-9  ".data, "POST".data, "/p".data, "sha".data, none⟩ 50 =
      IdemStore.claimFn ⟨[]⟩
        ⟨"key-9".data, "POST".data, "/p".data, "sha".data, none⟩ 50) ∧
    (IdemStore.claimFn ⟨[]⟩
        ⟨"   ".data, "POST".data, "/p".data, "sha".data, none⟩ 50 =
      .error ⟨"idempotency_conflict".data, 400⟩) :=
  ⟨(idem_claim_key_trimming ⟨[]⟩
      ⟨"key-9".data, "POST".data, "/p".data, "sha".data, none⟩
      "  key-9  ".data "key-9".data 50).1 (by decide),
   (idem_claim_key_trimming ⟨[]⟩
      ⟨"key-9".data, "POST".data, "/p".data, "sha".data, none⟩
      "   ".data "key-9".data 50).2 (by decide)⟩

/-! ## Claim theorems for the balance and reset routes -/

/-- C9.  A balance read for a `(tenant, user)` with no `credits` row
answers 200 with balance 0 — indistinguishable from a stored balance of
0, which produces the identical response. -/
theorem balance_route_missing_row_reads_zero (db db2 : DB)
    (tenant u : Str)
    (h1 : lookupCredit db tenant u = none)
    (h2 : lookupCredit db2 tenant u = some 0) :
    balanceRoute db tenant (some u) = .ok 0 ∧
    (balanceRoute db tenant (some u)).httpStatus = 200 ∧
    balanceRoute db2 tenant (some u) = balanceRoute db tenant (some u) := by
  refine ⟨?_, ?_, ?_⟩ <;>
    simp [balanceRoute, h1, h2, BalanceResult.httpStatus]

/-- Witness for C9 at concrete stores: an empty store and a store
holding an explicit zero row give the same 200 / balance-0 answer. -/
theorem balance_route_missing_row_reads_zero_witness :
    balanceRoute ⟨[], [], []⟩ demoTenant (some demoUser) = .ok 0 ∧
    balanceRoute ⟨[⟨demoTenant, demoUser, 0⟩], [], []⟩ demoTenant
        (some demoUser) =
      balanceRoute ⟨[], [], []⟩ demoTenant (some demoUser) :=
  ⟨(balance_route_missing_row_reads_zero ⟨[], [], []⟩
      ⟨[⟨demoTenant, demoUser, 0⟩], [], []⟩ demoTenant demoUser
      (by decide) (by decide)).1,
   (balance_route_missing_row_reads_zero ⟨[], [], []⟩
      ⟨[⟨demoTenant, demoUser, 0⟩], [], []⟩ demoTenant demoUser
      (by decide) (by decide)).2.2⟩

lemma find?_append_singleton_of_none {p : CreditRow → Bool} :
    ∀ l : List CreditRow, l.find? p = none → ∀ x, p x = true →
      (l ++ [x]).find? p = some x := by
  intro l
  induction l with
  | nil => intro _ x hx; simp [List.find?_cons, hx]
  | cons r rest ih =>
    intro h x hx
    rw [List.find?_cons] at h
    cases hr : p r with
    | true => rw [hr] at h; simp at h
    | false =>
      rw [hr] at h
      rw [List.cons_append, List.find?_cons, hr]
      exact ih h x hx

lemma find?_setCreditZero (t u : Str) :
    ∀ rows : List CreditRow, ∀ c,
      rows.find? (keyMatch t u) = some c →
      (setCreditZero t u rows).find? (keyMatch t u) =
        some { c with balance := 0 } := by
  intro rows
  induction rows with
  | nil => intro c h; simp at h
  | cons r rest ih =>
    intro c h
    rw [List.find?_cons] at h
    cases hr : keyMatch t u r with
    | true =>
      rw [hr] at h
      obtain rfl : r = c := by injection h
      have hr' := hr
      unfold keyMatch at hr'
      unfold setCreditZero
      simp only [List.map_cons, hr', if_pos]
      rw [List.find?_cons]
      have : keyMatch t u { r with balance := 0 } = true := by
        unfold keyMatch at hr ⊢; exact hr
      rw [this]
    | false =>
      rw [hr] at h
      have hr' := hr
      unfold keyMatch at hr'
      unfold setCreditZero
      simp only [List.map_cons, hr']
      rw [if_neg (show ¬ false = true from Bool.false_ne_true)]
      rw [List.find?_cons, hr]
      exact ih c h

/-- C8 counterexample: resetting a user whose stored balance is already
0 succeeds (200 `{ok, previous_balance_credits: 0, new_balance_credits:
0}`) yet writes no `manual_reset` journal entry — the handler only
writes the entry when the previous balance was positive, so the claim's
"for every request that succeeds" fails here. -/
theorem reset_route_zero_balance_no_journal :
    resetRoute ⟨[⟨demoTenant, demoUser, 0⟩], [], []⟩ demoTenant
        (some demoUser) demoUser 1736400000000 =
      (.success 0, ⟨[⟨demoTenant, demoUser, 0⟩], [], []⟩) := by rfl

/-- C8 amended.  A successful reset answers
`{ok, previous_balance_credits, new_balance_credits: 0}` and zeroes the
balance; a `manual_reset` journal entry with `amount_credits` equal to
the previous balance and ref `manual_reset_<unix_ms>` is written
exactly when the previous balance was positive — a previous balance of
0 (or a missing row) leaves the journal untouched. -/
theorem reset_route_spec (db : DB) (tenant : Str) (uid : Option Str)
    (demo : Str) (nowMs : Nat) :
    (resetRoute db tenant uid demo nowMs).1 =
      .success ((lookupCredit db tenant (uid.getD demo)).getD 0) ∧
    lookupCredit (resetRoute db tenant uid demo nowMs).2 tenant
      (uid.getD demo) = some 0 ∧
    (0 < (lookupCredit db tenant (uid.getD demo)).getD 0 →
      (resetRoute db tenant uid demo nowMs).2.txLedger =
        db.txLedger ++ [⟨tenant, uid.getD demo, "manual_reset".data,
          (lookupCredit db tenant (uid.getD demo)).getD 0,
          "manual_reset_".data ++ natToStr nowMs⟩]) ∧
    ((lookupCredit db tenant (uid.getD demo)).getD 0 ≤ 0 →
      (resetRoute db tenant uid demo nowMs).2.txLedger = db.txLedger) := by
  cases hlc : lookupCredit db tenant (uid.getD demo) with
  | none =>
    have hfind : db.credits.find? (keyMatch tenant (uid.getD demo)) = none := by
      rw [lookupCredit_def] at hlc
      exact Option.map_eq_none'.mp hlc
    refine ⟨?_, ?_, ?_, ?_⟩
    · simp [resetRoute, hlc]
    · simp only [resetRoute, hlc, Option.getD_none]
      rw [if_neg (by omega)]
      rw [lookupCredit_def]
      simp only
      rw [find?_append_singleton_of_none db.credits hfind
        ⟨tenant, uid.getD demo, 0⟩ (by unfold keyMatch; simp)]
      rfl
    · intro h
      simp only [Option.getD_none] at h
      omega
    · intro _
      simp only [resetRoute, hlc, Option.getD_none]
      rw [if_neg (by omega)]
  | some b =>
    obtain ⟨c, hfind, hcb⟩ :
        ∃ c, db.credits.find? (keyMatch tenant (uid.getD demo)) = some c ∧
          c.balance = b := by
      rw [lookupCredit_def] at hlc
      cases hf : db.credits.find? (keyMatch tenant (uid.getD demo)) with
      | none => rw [hf] at hlc; simp at hlc
      | some c =>
        rw [hf] at hlc
        simp only [Option.map_some'] at hlc
        exact ⟨c, rfl, by injection hlc⟩
    have hset := find?_setCreditZero tenant (uid.getD demo) db.credits c hfind
    refine ⟨?_, ?_, ?_, ?_⟩
    · simp [resetRoute, hlc]
    · simp only [resetRoute, hlc, Option.getD_some]
      by_cases hb : b > 0
      · rw [if_pos hb, lookupCredit_def]
        simp only
        rw [hset]
        rfl
      · rw [if_neg hb, lookupCredit_def]
        simp only
        rw [hset]
        rfl
    · intro h
      simp only [Option.getD_some] at h
      simp only [resetRoute, hlc, Option.getD_some]
      rw [if_pos (by omega)]
    · intro h
      simp only [Option.getD_some] at h
      simp only [resetRoute, hlc, Option.getD_some]
      rw [if_neg (by omega)]

/-- Witness for C8's amended theorem: a positive balance of 42 resets
to 0 and appends the `manual_reset` journal row. -/
theorem reset_route_spec_witness :
    (resetRoute ⟨[⟨demoTenant, demoUser, 42⟩], [], []⟩ demoTenant
        (some demoUser) demoUser 1736400000000).1 = .success 42 ∧
    lookupCredit (resetRoute ⟨[⟨demoTenant, demoUser, 42⟩], [], []⟩
        demoTenant (some demoUser) demoUser 1736400000000).2 demoTenant
      demoUser = some 0 ∧
    (resetRoute ⟨[⟨demoTenant, demoUser, 42⟩], [], []⟩ demoTenant
        (some demoUser) demoUser 1736400000000).2.txLedger =
      [⟨demoTenant, demoUser, "manual_reset".data, 42,
        "manual_reset_".data ++ natToStr 1736400000000⟩] :=
  ⟨(reset_route_spec ⟨[⟨demoTenant, demoUser, 42⟩], [], []⟩ demoTenant
      (some demoUser) demoUser 1736400000000).1,
   (reset_route_spec ⟨[⟨demoTenant, demoUser, 42⟩], [], []⟩ demoTenant
      (some demoUser) demoUser 1736400000000).2.1,
   (reset_route_spec ⟨[⟨demoTenant, demoUser, 42⟩], [], []⟩ demoTenant
      (some demoUser) demoUser 1736400000000).2.2.1 (by decide)⟩

/-! ## String lemmas for the signature module -/

lemma dropWhile_eq_self_of_forall {p : Char → Bool} :
    ∀ s : Str, (∀ c ∈ s, p c = false) → s.dropWhile p = s := by
  intro s h
  cases s with
  | nil => rfl
  | cons c rest =>
    rw [List.dropWhile_cons, h c (List.mem_cons_self c rest)]
    simp

lemma trimChars_eq_self {s : Str} (h : ∀ c ∈ s, isWsChar c = false) :
    trimChars s = s := by
  unfold trimChars
  rw [dropWhile_eq_self_of_forall s h,
      dropWhile_eq_self_of_forall s.reverse
        (fun c hc => h c (List.mem_reverse.mp hc)),
      List.reverse_reverse]

lemma toLowerStr_eq_self {s : Str} (h : ∀ c ∈ s, c.toLower = c) :
    toLowerStr s = s := by
  unfold toLowerStr
  calc s.map Char.toLower = s.map id := List.map_congr_left h
    _ = s := List.map_id s

lemma normalizeHex_eq_self {s : Str}
    (hws : ∀ c ∈ s, isWsChar c = false)
    (hlo : ∀ c ∈ s, c.toLower = c) :
    normalizeHex s = s := by
  unfold normalizeHex
  rw [trimChars_eq_self hws, toLowerStr_eq_self hlo]

lemma splitOnChar_nil (sep : Char) : splitOnChar sep [] = [[]] := rfl

lemma splitOnChar_cons (sep c : Char) (rest : Str) :
    splitOnChar sep (c :: rest) =
      match splitOnChar sep rest with
      | [] => [[]]
      | s :: ss => if c = sep then [] :: s :: ss else (c :: s) :: ss := rfl

lemma takeDigits_nil (acc : Nat) : takeDigits [] acc = acc := rfl

lemma takeDigits_cons (c : Char) (rest : Str) (acc : Nat) :
    takeDigits (c :: rest) acc =
      match digitVal? c with
      | some d => takeDigits rest (acc * 10 + d)
      | none => acc := rfl

lemma parseDigitsOpt_cons (c : Char) (rest : Str) :
    parseDigitsOpt (c :: rest) =
      match digitVal? c with
      | some d => some (takeDigits rest d)
      | none => none := rfl

lemma jsParseInt_cons (c : Char) (rest : Str) :
    jsParseInt (c :: rest) =
      if c = '-' then (parseDigitsOpt rest).map (fun n => -(n : Int))
      else if c = '+' then (parseDigitsOpt rest).map (fun n => (n : Int))
      else (parseDigitsOpt (c :: rest)).map (fun n => (n : Int)) := rfl

lemma natToStrAux_succ (f n : Nat) :
    natToStrAux (f + 1) n =
      if n < 10 then [digitChar n]
      else natToStrAux f (n / 10) ++ [digitChar (n % 10)] := rfl

lemma splitOnChar_ne_nil (sep : Char) : ∀ s : Str, splitOnChar sep s ≠ [] := by
  intro s
  cases s with
  | nil => simp [splitOnChar_nil]
  | cons c rest =>
    rw [splitOnChar_cons]
    cases h : splitOnChar sep rest with
    | nil => simp
    | cons x xs =>
      by_cases hc : c = sep <;> simp [hc]

lemma splitOnChar_no_sep (sep : Char) :
    ∀ s : Str, (∀ c ∈ s, c ≠ sep) → splitOnChar sep s = [s] := by
  intro s
  induction s with
  | nil => intro _; rfl
  | cons c rest ih =>
    intro h
    rw [splitOnChar_cons]
    simp only [ih fun x hx => h x (List.mem_cons_of_mem c hx)]
    rw [if_neg (h c (List.mem_cons_self c rest))]

lemma splitOnChar_append_cons (sep : Char) :
    ∀ xs ys : Str, (∀ c ∈ xs, c ≠ sep) →
      splitOnChar sep (xs ++ sep :: ys) = xs :: splitOnChar sep ys := by
  intro xs
  induction xs with
  | nil =>
    intro ys _
    show splitOnChar sep (sep :: ys) = [] :: splitOnChar sep ys
    rw [splitOnChar_cons]
    cases h : splitOnChar sep ys with
    | nil => exact absurd h (splitOnChar_ne_nil sep ys)
    | cons x xs' =>
      simp
  | cons c rest ih =>
    intro ys h
    rw [List.cons_append, splitOnChar_cons]
    simp only [ih ys fun x hx => h x (List.mem_cons_of_mem c hx)]
    rw [if_neg (h c (List.mem_cons_self c rest))]

lemma mem_decDigits_props :
    ∀ c ∈ decDigits, isWsChar c = false ∧ c ≠ ',' ∧ c ≠ '=' ∧ c ≠ '-' ∧
      c ≠ '+' ∧ (digitVal? c).isSome = true ∧ c.toLower = c ∧
      c ∈ hexDigitsLower := by decide

lemma mem_hexDigitsLower_props :
    ∀ c ∈ hexDigitsLower, isWsChar c = false ∧ c ≠ ',' ∧ c ≠ '=' ∧
      c.toLower = c ∧ (hexVal? c).isSome = true ∧
      (hexVal? c).getD 0 < 16 := by decide

lemma hexVal?_inj_on_lower :
    ∀ c1 ∈ hexDigitsLower, ∀ c2 ∈ hexDigitsLower,
      hexVal? c1 = hexVal? c2 → c1 = c2 := by decide

lemma digitChar_mem_decDigits : ∀ m : Nat, digitChar m ∈ decDigits := by
  intro m
  match m with
  | 0 | 1 | 2 | 3 | 4 | 5 | 6 | 7 | 8 => decide
  | n + 9 => show '9' ∈ decDigits; decide

lemma digitVal?_digitChar {m : Nat} (h : m < 10) :
    digitVal? (digitChar m) = some m := by
  match m, h with
  | 0, _ | 1, _ | 2, _ | 3, _ | 4, _ | 5, _ | 6, _ | 7, _ | 8, _ | 9, _ =>
    decide

lemma natToStrAux_mem_decDigits :
    ∀ fuel n, n < fuel → ∀ c ∈ natToStrAux fuel n, c ∈ decDigits := by
  intro fuel
  induction fuel with
  | zero => intro n h; omega
  | succ f ih =>
    intro n hn c hc
    rw [natToStrAux_succ] at hc
    by_cases h10 : n < 10
    · rw [if_pos h10] at hc
      rcases List.mem_singleton.mp hc with rfl
      exact digitChar_mem_decDigits n
    · rw [if_neg h10] at hc
      rcases List.mem_append.mp hc with hc | hc
      · exact ih (n / 10) (by omega) c hc
      · rcases List.mem_singleton.mp hc with rfl
        exact digitChar_mem_decDigits (n % 10)

lemma natToStrAux_ne_nil :
    ∀ fuel n, n < fuel → natToStrAux fuel n ≠ [] := by
  intro fuel
  induction fuel with
  | zero => intro n h; omega
  | succ f ih =>
    intro n hn
    rw [natToStrAux_succ]
    by_cases h10 : n < 10
    · rw [if_pos h10]; simp
    · rw [if_neg h10]; simp

lemma takeDigits_append :
    ∀ xs ys : Str, ∀ acc, (∀ c ∈ xs, (digitVal? c).isSome = true) →
      takeDigits (xs ++ ys) acc = takeDigits ys (takeDigits xs acc) := by
  intro xs
  induction xs with
  | nil => intro ys acc _; rfl
  | cons c rest ih =>
    intro ys acc h
    rw [List.cons_append, takeDigits_cons, takeDigits_cons]
    cases hv : digitVal? c with
    | none =>
      have := h c (List.mem_cons_self c rest)
      rw [hv] at this; simp at this
    | some d =>
      simp only
      exact ih ys (acc * 10 + d) fun x hx => h x (List.mem_cons_of_mem c hx)

lemma natToStrAux_takeDigits :
    ∀ fuel n, n < fuel → ∀ acc,
      takeDigits (natToStrAux fuel n) acc =
        acc * 10 ^ (natToStrAux fuel n).length + n := by
  intro fuel
  induction fuel with
  | zero => intro n h; omega
  | succ f ih =>
    intro n hn acc
    by_cases h10 : n < 10
    · rw [natToStrAux_succ, if_pos h10, takeDigits_cons]
      simp only [digitVal?_digitChar h10, takeDigits_nil]
      show acc * 10 + n = acc * 10 ^ [digitChar n].length + n
      rw [List.length_singleton, pow_one]
    · rw [natToStrAux_succ, if_neg h10]
      rw [takeDigits_append _ _ acc
        (fun c hc => (mem_decDigits_props c
          (natToStrAux_mem_decDigits f (n / 10) (by omega) c hc)).2.2.2.2.2.1)]
      rw [ih (n / 10) (by omega) acc, takeDigits_cons]
      simp only [digitVal?_digitChar (Nat.mod_lt n (by omega)), takeDigits_nil]
      rw [List.length_append, List.length_singleton, pow_succ]
      have hmod := Nat.div_add_mod n 10
      set L := (natToStrAux f (n / 10)).length
      ring_nf
      omega

lemma natToStr_mem_decDigits {n : Nat} : ∀ c ∈ natToStr n, c ∈ decDigits :=
  natToStrAux_mem_decDigits (n + 1) n (by omega)

lemma natToStr_ne_nil (n : Nat) : natToStr n ≠ [] :=
  natToStrAux_ne_nil (n + 1) n (by omega)

lemma parseDigitsOpt_natToStr (n : Nat) :
    parseDigitsOpt (natToStr n) = some n := by
  have hval : takeDigits (natToStr n) 0 =
      0 * 10 ^ (natToStr n).length + n :=
    natToStrAux_takeDigits (n + 1) n (by omega) 0
  rw [zero_mul, zero_add] at hval
  cases hs : natToStr n with
  | nil => exact absurd hs (natToStr_ne_nil n)
  | cons c rest =>
    have hcmem : c ∈ decDigits :=
      natToStr_mem_decDigits c (hs ▸ List.mem_cons_self c rest)
    cases hv : digitVal? c with
    | none =>
      have := (mem_decDigits_props c hcmem).2.2.2.2.2.1
      rw [hv] at this; simp at this
    | some d =>
      rw [hs, takeDigits_cons] at hval
      simp only [hv, Nat.zero_mul, Nat.zero_add] at hval
      rw [parseDigitsOpt_cons]
      simp only [hv]
      rw [hval]

lemma jsParseInt_natToStr (n : Nat) :
    jsParseInt (natToStr n) = some (n : Int) := by
  cases hs : natToStr n with
  | nil => exact absurd hs (natToStr_ne_nil n)
  | cons c rest =>
    have hcmem : c ∈ decDigits :=
      natToStr_mem_decDigits c (hs ▸ List.mem_cons_self c rest)
    have hprops := mem_decDigits_props c hcmem
    rw [jsParseInt_cons, if_neg hprops.2.2.2.1, if_neg hprops.2.2.2.2.1,
        ← hs, parseDigitsOpt_natToStr n]
    rfl

lemma decodeHex_cons2 (c1 c2 : Char) (rest : Str) :
    decodeHex (c1 :: c2 :: rest) =
      match hexVal? c1, hexVal? c2 with
      | some h, some l => (16 * h + l) :: decodeHex rest
      | _, _ => [] := rfl

lemma hexVal?_mem_lower {c : Char} (h : c ∈ hexDigitsLower) :
    ∃ v, hexVal? c = some v ∧ v < 16 := by
  have hp := mem_hexDigitsLower_props c h
  rcases Option.isSome_iff_exists.mp hp.2.2.2.2.1 with ⟨v, hv⟩
  refine ⟨v, hv, ?_⟩
  have := hp.2.2.2.2.2
  rw [hv] at this
  simpa using this

/-- Distinct strings of lowercase hex digits with the same even length
decode to distinct byte lists (Node hex decoding is injective there). -/
theorem decodeHex_inj : ∀ a b : Str,
    (∀ c ∈ a, c ∈ hexDigitsLower) → (∀ c ∈ b, c ∈ hexDigitsLower) →
    a.length = b.length → a.length % 2 = 0 →
    decodeHex a = decodeHex b → a = b
  | [], [] => by intros; rfl
  | [], _ :: _ => by intro _ _ hlen _ _; simp at hlen
  | _ :: _, [] => by intro _ _ hlen _ _; simp at hlen
  | [_], [_] => by intro _ _ _ hpar _; simp at hpar
  | [_], _ :: _ :: _ => by
    intro _ _ hlen _ _
    simp [List.length_cons] at hlen
  | _ :: _ :: _, [_] => by
    intro _ _ hlen _ _
    simp [List.length_cons] at hlen
  | a1 :: a2 :: as, b1 :: b2 :: bs => by
    intro ha hb hlen hpar hdec
    obtain ⟨h1, hva1, hb1⟩ := hexVal?_mem_lower
      (ha a1 (List.mem_cons_self _ _))
    obtain ⟨l1, hva2, hb2⟩ := hexVal?_mem_lower
      (ha a2 (List.mem_cons_of_mem _ (List.mem_cons_self _ _)))
    obtain ⟨h2, hvb1, hb3⟩ := hexVal?_mem_lower
      (hb b1 (List.mem_cons_self _ _))
    obtain ⟨l2, hvb2, hb4⟩ := hexVal?_mem_lower
      (hb b2 (List.mem_cons_of_mem _ (List.mem_cons_self _ _)))
    rw [decodeHex_cons2, decodeHex_cons2] at hdec
    simp only [hva1, hva2, hvb1, hvb2] at hdec
    injection hdec with hval hdec'
    have hh : h1 = h2 ∧ l1 = l2 := by omega
    have he1 : a1 = b1 := hexVal?_inj_on_lower a1
      (ha a1 (List.mem_cons_self _ _)) b1 (hb b1 (List.mem_cons_self _ _))
      (by rw [hva1, hvb1, hh.1])
    have he2 : a2 = b2 := hexVal?_inj_on_lower a2
      (ha a2 (List.mem_cons_of_mem _ (List.mem_cons_self _ _))) b2
      (hb b2 (List.mem_cons_of_mem _ (List.mem_cons_self _ _)))
      (by rw [hva2, hvb2, hh.2])
    have hrec : as = bs :=
      decodeHex_inj as bs
        (fun c hc => ha c (List.mem_cons_of_mem _ (List.mem_cons_of_mem _ hc)))
        (fun c hc => hb c (List.mem_cons_of_mem _ (List.mem_cons_of_mem _ hc)))
        (by simp only [List.length_cons] at hlen; omega)
        (by simp only [List.length_cons] at hpar ⊢; omega)
        hdec'
    rw [he1, he2, hrec]

lemma isSha256Hex_ne_nil {a : Str} (h : isSha256Hex a) : a ≠ [] := by
  intro hh
  rw [hh] at h
  exact absurd h.1 (by decide)

lemma timingSafeEqualHex_self {a : Str} (h : a ≠ []) :
    timingSafeEqualHex a a = true := by
  simp [timingSafeEqualHex, h]

lemma timingSafeEqualHex_of_ne {a b : Str} (ha : isSha256Hex a)
    (hb : isSha256Hex b) (hne : a ≠ b) :
    timingSafeEqualHex a b = false := by
  have hlen : a.length = b.length := by rw [ha.1, hb.1]
  unfold timingSafeEqualHex
  rw [if_neg (by
    simp [isSha256Hex_ne_nil ha, isSha256Hex_ne_nil hb, hlen])]
  by_cases hd : decodeHex a = decodeHex b
  · exact absurd
      (decodeHex_inj a b ha.2 hb.2 hlen (by rw [ha.1]) hd) hne
  · simp only
    split
    · rfl
    · simp [hd]

lemma isSha256Hex_no_ws {s : Str} (h : isSha256Hex s) :
    ∀ c ∈ s, isWsChar c = false :=
  fun c hc => (mem_hexDigitsLower_props c (h.2 c hc)).1

lemma isSha256Hex_normalize {s : Str} (h : isSha256Hex s) :
    normalizeHex s = s :=
  normalizeHex_eq_self (isSha256Hex_no_ws h)
    (fun c hc => (mem_hexDigitsLower_props c (h.2 c hc)).2.2.2.1)

lemma isSha256Hex_trim {s : Str} (h : isSha256Hex s) : trimChars s = s :=
  trimChars_eq_self (isSha256Hex_no_ws h)

lemma intToStr_pos {t : Int} (h : 0 < t) : intToStr t = natToStr t.toNat := by
  unfold intToStr
  rw [if_neg (by omega)]

lemma parsePart_tField (st : Option Int × Option Str) (tn : Nat) :
    parsePart st ("t=".data ++ natToStr tn) = (some (tn : Int), st.2) := by
  have hsplit : splitOnChar '=' ("t=".data ++ natToStr tn) =
      ["t".data, natToStr tn] := by
    show splitOnChar '=' (['t'] ++ '=' :: natToStr tn) = _
    rw [splitOnChar_append_cons '=' ['t'] (natToStr tn) (by decide),
        splitOnChar_no_sep '=' (natToStr tn)
          (fun c hc => (mem_decDigits_props c
            (natToStr_mem_decDigits c hc)).2.2.1)]
  unfold parsePart
  rw [hsplit]
  simp only [List.headD_cons, List.drop_succ_cons, List.drop_zero]
  rw [show trimChars "t".data = "t".data from rfl,
      trimChars_eq_self (fun c hc => (mem_decDigits_props c
        (natToStr_mem_decDigits c hc)).1)]
  unfold parsePartKV
  rw [if_neg (by simp [natToStr_ne_nil tn]), if_pos rfl]
  simp only [jsParseInt_natToStr tn]

lemma parsePart_v1Field (st : Option Int × Option Str) (digest : Str)
    (hd : isSha256Hex digest) :
    parsePart st ("v1=".data ++ digest) = (st.1, some digest) := by
  have hsplit : splitOnChar '=' ("v1=".data ++ digest) =
      ["v1".data, digest] := by
    show splitOnChar '=' (['v', '1'] ++ '=' :: digest) = _
    rw [splitOnChar_append_cons '=' ['v', '1'] digest (by decide),
        splitOnChar_no_sep '=' digest
          (fun c hc => (mem_hexDigitsLower_props c (hd.2 c hc)).2.2.1)]
  unfold parsePart
  rw [hsplit]
  simp only [List.headD_cons, List.drop_succ_cons, List.drop_zero]
  rw [show trimChars "v1".data = "v1".data from rfl, isSha256Hex_trim hd]
  unfold parsePartKV
  rw [if_neg (by simp [isSha256Hex_ne_nil hd]),
      if_neg (by decide), if_pos rfl, isSha256Hex_normalize hd]

/-- Facts about the literal fragments of a signature header. -/
lemma tEq_fragment_props :
    ∀ c ∈ ("t=".data : Str), c ≠ ',' ∧ isWsChar c = false := by decide

lemma v1Eq_fragment_props :
    ∀ c ∈ ("v1=".data : Str), c ≠ ',' ∧ isWsChar c = false := by decide

/-- Parsing the header emitted by `computeSig` for a positive timestamp
recovers exactly the timestamp and the digest. -/
lemma parseSignatureHeader_computeSig (tn : Nat) (hpos : 0 < tn)
    (digest : Str) (hd : isSha256Hex digest) :
    parseSignatureHeader
        ("t=".data ++ natToStr tn ++ ",v1=".data ++ digest) =
      some ⟨(tn : Int), digest⟩ := by
  have hassoc : "t=".data ++ natToStr tn ++ ",v1=".data ++ digest =
      ("t=".data ++ natToStr tn) ++ ',' :: ("v1=".data ++ digest) := by
    rw [List.append_assoc, List.append_assoc]
    rfl
  have hsplit : splitOnChar ','
      ("t=".data ++ natToStr tn ++ ",v1=".data ++ digest) =
      ["t=".data ++ natToStr tn, "v1=".data ++ digest] := by
    rw [hassoc, splitOnChar_append_cons ',' _ _ ?side,
        splitOnChar_no_sep ',' _ ?side2]
    case side =>
      intro c hc
      rcases List.mem_append.mp hc with hc | hc
      · exact (tEq_fragment_props c hc).1
      · exact (mem_decDigits_props c (natToStr_mem_decDigits c hc)).2.1
    case side2 =>
      intro c hc
      rcases List.mem_append.mp hc with hc | hc
      · exact (v1Eq_fragment_props c hc).1
      · exact (mem_hexDigitsLower_props c (hd.2 c hc)).2.1
  have htrim1 : trimChars ("t=".data ++ natToStr tn) =
      "t=".data ++ natToStr tn := by
    apply trimChars_eq_self
    intro c hc
    rcases List.mem_append.mp hc with hc | hc
    · exact (tEq_fragment_props c hc).2
    · exact (mem_decDigits_props c (natToStr_mem_decDigits c hc)).1
  have htrim2 : trimChars ("v1=".data ++ digest) =
      "v1=".data ++ digest := by
    apply trimChars_eq_self
    intro c hc
    rcases List.mem_append.mp hc with hc | hc
    · exact (v1Eq_fragment_props c hc).2
    · exact isSha256Hex_no_ws hd c hc
  have hfold : ((splitOnChar ','
      ("t=".data ++ natToStr tn ++ ",v1=".data ++ digest)).map
        trimChars).foldl parsePart (none, none) =
      (some (tn : Int), some digest) := by
    rw [hsplit, List.map_cons, List.map_cons, List.map_nil, htrim1, htrim2,
        List.foldl_cons, List.foldl_cons, List.foldl_nil,
        parsePart_tField, parsePart_v1Field _ _ hd]
  unfold parseSignatureHeader
  simp only [hfold]
  rw [if_neg]
  simp only [Bool.or_eq_true, decide_eq_true_eq, not_or]
  exact ⟨by omega, isSha256Hex_ne_nil hd⟩

lemma toyDigest_isSha256Hex (s : Str) : isSha256Hex (toyDigest s) := by
  constructor
  · show (digitChar _ :: List.replicate 63 '0').length = 64
    simp
  · intro c hc
    rcases List.mem_cons.mp hc with rfl | hc
    · exact (mem_decDigits_props _
        (digitChar_mem_decDigits _)).2.2.2.2.2.2.2
    · rw [List.eq_of_mem_replicate hc]; decide

lemma computeSig_of_secret (crypto : Crypto) {secret : Str} (body : Str)
    (t : Int) (h : secret ≠ []) :
    computeSig crypto secret body t =
      some ⟨"t=".data ++ intToStr t ++ ",v1=".data ++
              crypto.hmacSha256 secret (intToStr t ++ '.' :: body),
            crypto.hmacSha256 secret (intToStr t ++ '.' :: body), t⟩ := by
  unfold computeSig
  rw [if_neg h]

lemma signedRequest_body (crypto : Crypto) (secret body : Str) (t : Int) :
    (signedRequest crypto secret body t).body = body := rfl

lemma getHeader_signedRequest_bodysha (crypto : Crypto)
    (secret body : Str) (t : Int) :
    getHeader (signedRequest crypto secret body t) BODY_HASH_HEADER =
      some (crypto.sha256 body) := rfl

lemma getHeader_withBody (r : Request) (b n : Str) :
    getHeader { r with body := b } n = getHeader r n := rfl

lemma getSignatureHeader_withBody (r : Request) (b : Str) :
    getSignatureHeader { r with body := b } = getSignatureHeader r := rfl

lemma getSignatureHeader_signedRequest (crypto : Crypto) {secret : Str}
    (body : Str) (t : Int) (hsecret : secret ≠ []) :
    getSignatureHeader (signedRequest crypto secret body t) =
      some ("t=".data ++ intToStr t ++ ",v1=".data ++
            crypto.hmacSha256 secret (intToStr t ++ '.' :: body)) := by
  have hget : getHeader (signedRequest crypto secret body t) SIG_HEADER =
      some (match computeSig crypto secret body t with
            | some c => c.header
            | none => []) := rfl
  unfold getSignatureHeader
  simp only [hget, computeSig_of_secret crypto body t hsecret]
  rw [if_pos (by
    simp [show ("t=".data : Str) = ['t', '='] from rfl])]

/-- C3.  HMAC round trip against the verifier: a request carrying the
`computeSig` signature header and the matching body-hash header
verifies `ok` at `now = t`; the same request at `now = t + 301` is
rejected as `timestamp_out_of_window`; and replacing the body by one
whose SHA-256 differs (SHA-256 collision-freedom rendered as the hash
inequality hypothesis) is rejected as `body_hash_mismatch`.  The two
digest-shape hypotheses record that SHA-256 / HMAC-SHA-256 hex digests
are 64 lowercase hex characters. -/
theorem hmac_sign_verify_roundtrip (crypto : Crypto)
    (secret body body2 : Str) (t : Int)
    (hsecret : secret ≠ []) (hbody : body ≠ []) (ht : 0 < t)
    (hsha : isSha256Hex (crypto.sha256 body))
    (hdig : isSha256Hex
      (crypto.hmacSha256 secret (intToStr t ++ '.' :: body))) :
    verify crypto (signedRequest crypto secret body t) secret t =
      some (.ok body t
        (crypto.hmacSha256 secret (intToStr t ++ '.' :: body))) ∧
    verify crypto (signedRequest crypto secret body t) secret (t + 301) =
      some (.fail body "timestamp_out_of_window".data) ∧
    (crypto.sha256 body2 ≠ crypto.sha256 body →
      isSha256Hex (crypto.sha256 body2) →
      verify crypto
          { signedRequest crypto secret body t with body := body2 }
          secret t =
        some (.fail body2 "body_hash_mismatch".data)) := by
  have hsig := getSignatureHeader_signedRequest crypto body t hsecret
  have hparse : parseSignatureHeader
      ("t=".data ++ intToStr t ++ ",v1=".data ++
        crypto.hmacSha256 secret (intToStr t ++ '.' :: body)) =
      some ⟨t, crypto.hmacSha256 secret (intToStr t ++ '.' :: body)⟩ := by
    obtain ⟨D, hD⟩ :
        ∃ D, crypto.hmacSha256 secret (intToStr t ++ '.' :: body) = D :=
      ⟨_, rfl⟩
    rw [hD, intToStr_pos ht]
    have h2 := parseSignatureHeader_computeSig t.toNat (by omega) D
      (hD ▸ hdig)
    rwa [Int.toNat_of_nonneg (by omega)] at h2
  have hskew0 : ¬(ALLOWED_SKEW_SECONDS < |t - t|) := by
    simp [ALLOWED_SKEW_SECONDS]
  have hne_sha := isSha256Hex_ne_nil hsha
  have hne_dig := isSha256Hex_ne_nil hdig
  refine ⟨?_, ?_, ?_⟩
  · simp only [verify, signedRequest_body, hsig, hparse, if_neg hskew0,
      getHeader_signedRequest_bodysha, Option.getD_some,
      isSha256Hex_normalize hsha, hashBody,
      timingSafeEqualHex_self hne_sha,
      computeSig_of_secret crypto body t hsecret,
      timingSafeEqualHex_self hne_dig, Bool.not_true,
      Bool.false_eq_true, if_false]
    rw [if_neg (by simp [hne_sha])]
  · have hskew1 : ALLOWED_SKEW_SECONDS < |t + 301 - t| := by
      rw [show t + 301 - t = 301 from by ring]
      decide
    simp only [verify, signedRequest_body, hsig, hparse, if_pos hskew1]
  · intro hcol hsha2
    have hfalse : timingSafeEqualHex (crypto.sha256 body)
        (crypto.sha256 body2) = false :=
      timingSafeEqualHex_of_ne hsha hsha2 (Ne.symm hcol)
    simp only [verify, getSignatureHeader_withBody, hsig,
      getHeader_withBody, hparse, if_neg hskew0,
      getHeader_signedRequest_bodysha, Option.getD_some,
      isSha256Hex_normalize hsha, hashBody, hfalse, Bool.not_false,
      if_true]
    rw [if_neg (by simp [hne_sha])]

/-- Witness for C3 with the executable stand-in digests at the spec's
demo secret, timestamp 1729200000 and bodies `x` / `y`. -/
theorem hmac_sign_verify_roundtrip_witness :
    verify toyCrypto
        (signedRequest toyCrypto "demo-signing-secret".data "x".data
          1729200000) "demo-signing-secret".data 1729200000 =
      some (.ok "x".data 1729200000
        (toyCrypto.hmacSha256 "demo-signing-secret".data
          (intToStr 1729200000 ++ '.' :: "x".data))) ∧
    verify toyCrypto
        (signedRequest toyCrypto "demo-signing-secret".data "x".data
          1729200000) "demo-signing-secret".data (1729200000 + 301) =
      some (.fail "x".data "timestamp_out_of_window".data) ∧
    verify toyCrypto
        { signedRequest toyCrypto "demo-signing-secret".data "x".data
            1729200000 with body := "y".data }
        "demo-signing-secret".data 1729200000 =
      some (.fail "y".data "body_hash_mismatch".data) := by
  have h := hmac_sign_verify_roundtrip toyCrypto
    "demo-signing-secret".data "x".data "y".data 1729200000
    (by decide) (by decide) (by decide)
    (toyDigest_isSha256Hex "x".data)
    (toyDigest_isSha256Hex
      ("demo-signing-secret".data ++ (intToStr 1729200000 ++ '.' :: "x".data)))
  exact ⟨h.1, h.2.1, h.2.2 (by decide) (toyDigest_isSha256Hex "y".data)⟩

/-- C7 counterexample: the signature header `t=100,v1=zz` has a
non-hex `v1`, yet `parseSignatureHeader` accepts it (`normalizeHex`
only trims and lowercases), so a request carrying it with a valid body
hash fails later as `signature_mismatch`, not as the claimed
`invalid_signature_format`. -/
theorem nonhex_v1_not_format_error :
    parseSignatureHeader "t=100,v1=zz".data = some ⟨100, "zz".data⟩ ∧
    verify toyCrypto
        ⟨[(BODY_HASH_HEADER, toyDigest "x".data),
          (SIG_HEADER, "t=100,v1=zz".data)], "x".data⟩
        "demo-signing-secret".data 100 =
      some (.fail "x".data "signature_mismatch".data) ∧
    verify toyCrypto
        ⟨[(BODY_HASH_HEADER, toyDigest "x".data),
          (SIG_HEADER, "t=100,v1=zz".data)], "x".data⟩
        "demo-signing-secret".data 100 ≠
      some (.fail "x".data "invalid_signature_format".data) :=
  ⟨by decide, by rfl, by decide⟩

/-- C7 amended.  Verification fails with `invalid_signature_format`
exactly when `parseSignatureHeader` returns `null`: that covers a
missing `t` or `v1` component, a `t` with no digit prefix
(`Number.parseInt` yields `NaN`), a `t` parsing to the falsy `0`, and a
`v1` that trims to empty — but a non-empty non-hex `v1` passes the
parser and surfaces later as `signature_mismatch`, and a `t` with a
numeric prefix followed by garbage is accepted as that prefix. -/
theorem invalid_signature_format_cases (crypto : Crypto) (req : Request)
    (secret hv : Str) (now : Int)
    (hgsh : getSignatureHeader req = some hv)
    (hparse : parseSignatureHeader hv = none) :
    verify crypto req secret now =
      some (.fail req.body "invalid_signature_format".data) ∧
    parseSignatureHeader "t=100".data = none ∧
    parseSignatureHeader "v1=abc".data = none ∧
    parseSignatureHeader "t=xx,v1=ab".data = none ∧
    parseSignatureHeader "t=0,v1=ab".data = none ∧
    parseSignatureHeader "t=100,v1=".data = none := by
  refine ⟨?_, by decide, by decide, by decide, by decide, by decide⟩
  simp only [verify, hgsh, hparse]

/-- Witness for C7's amended theorem: a header carrying only `t=100`
(no `v1`) is rejected as `invalid_signature_format`. -/
theorem invalid_signature_format_cases_witness :
    verify toyCrypto ⟨[(SIG_HEADER, "t=100".data)], "x".data⟩
        "demo-signing-secret".data 100 =
      some (.fail "x".data "invalid_signature_format".data) :=
  (invalid_signature_format_cases toyCrypto
    ⟨[(SIG_HEADER, "t=100".data)], "x".data⟩
    "demo-signing-secret".data "t=100".data 100 (by rfl) (by decide)).1

/-- C2, evaluated at its failing input.  The file served at
`POST /api/gateway/deduct` embeds as `deductRoute`, which never reads
an `Idempotency-Key` header and performs no idempotency claim at all:
the demo request below carries no such header, yet the route debits the
ledger and answers 200 `{ok, new_balance: 95}` instead of the claimed
400 `missing_idempotency_key`. -/
theorem deduct_route_ignores_idempotency_key :
    getHeader demoDeductRequest "idempotency-key".data = none ∧
    deductRoute toyCrypto demoParseBody [demoVendor] (some demoTenant)
        demoDb demoDeductRequest 1729200000 =
      (.success 95,
       ⟨[⟨demoTenant, demoUser, 95⟩],
        [⟨demoTenant, demoUser, "deduct".data, 5, "demo-ref".data⟩],
        [(demoTenant, demoUser)]⟩) ∧
    (DeductResponse.success 95).httpStatus = 200 :=
  ⟨by decide, by rfl, by rfl⟩

end Flow402
